import Mathlib

/-!
# Runtime security probe: the event model (`pkg/security/probe/model.go`)

A shallow embedding of the lazy-resolution layer of the runtime security probe, followed
by the dentry resolver tail-call table (`pkg/security/ebpf/probes`), the event platform
forwarder (`pkg/logs/epforwarder`) and the request logging of the process module
(`cmd/system-probe/modules`).

Conventions of the embedding.

* Go `string` values that come from collaborators are Lean `String`s; byte buffers
  (`[]byte`, and strings built from raw bytes) are `List Nat`, one element per byte; a
  byte widened to an integer is taken `% 256`.
* Unsigned machine integers are `Nat`. Go `int` is 64 bits wide: `int(v)` of a `uint32`
  field is `v` itself, and `int(v)` of a `uint64` field is `intOfUint64 v`.
* A Go `error` is `Option Error`; `none` is `nil`.
* The tests `len(s) == 0` and `s == ""` on a Go string are both `s = ""`.
* A method with a pointer receiver or pointer argument takes the pointed-to value and
  returns its updated value next to the Go return value. Receivers are non-nil events, so
  the conjunct `ev != nil` of a guard is true and is not written.
* The resolvers are collaborators outside this file: each of their methods is an arbitrary
  function of the resolvers' state, and every invocation is appended to a call log.
-/

namespace Probe

/-! ## Errors -/

/-- Go `error` values met by the event model: the two truncation classes of the dentry
resolver, the decoder's `model.ErrNotEnoughData`, and any other error. -/
inductive Error where
  | ErrTruncatedSegment
  | ErrTruncatedParents
  | ErrNotEnoughData
  | other (msg : String)
  deriving DecidableEq, Repr

/-! ## Header decoding -/

/-- The two `encoding/binary` byte orders; which of them `model.ByteOrder` names is fixed
outside this file, so the decoder is parameterised by it. -/
inductive ByteOrder where
  | LittleEndian
  | BigEndian
  deriving DecidableEq, Repr

/-- Indexing `b[i]` of a byte slice, widened with `uint64(b[i])`. -/
def byteAt (b : List Nat) (i : Nat) : Nat := b.getD i 0 % 256

/-- Go slice expression `data[lo:hi]`. -/
def slice (data : List Nat) (lo hi : Nat) : List Nat := (data.take hi).drop lo

/-- The `Uint64` method of `binary.LittleEndian` and `binary.BigEndian`. -/
def ByteOrder.Uint64 (bo : ByteOrder) (b : List Nat) : Nat :=
  match bo with
  | .LittleEndian =>
    byteAt b 0 ||| byteAt b 1 <<< 8 ||| byteAt b 2 <<< 16 ||| byteAt b 3 <<< 24 |||
      byteAt b 4 <<< 32 ||| byteAt b 5 <<< 40 ||| byteAt b 6 <<< 48 ||| byteAt b 7 <<< 56
  | .BigEndian =>
    byteAt b 7 ||| byteAt b 6 <<< 8 ||| byteAt b 5 <<< 16 ||| byteAt b 4 <<< 24 |||
      byteAt b 3 <<< 32 ||| byteAt b 2 <<< 40 ||| byteAt b 1 <<< 48 ||| byteAt b 0 <<< 56

/-- The `PutUint64` method of the two byte orders, returning the eight bytes written;
`byte(v >> k)` is `(v >>> k) % 256`. -/
def ByteOrder.PutUint64 (bo : ByteOrder) (v : Nat) : List Nat :=
  match bo with
  | .LittleEndian =>
    [v % 256, (v >>> 8) % 256, (v >>> 16) % 256, (v >>> 24) % 256,
     (v >>> 32) % 256, (v >>> 40) % 256, (v >>> 48) % 256, (v >>> 56) % 256]
  | .BigEndian =>
    [(v >>> 56) % 256, (v >>> 48) % 256, (v >>> 40) % 256, (v >>> 32) % 256,
     (v >>> 24) % 256, (v >>> 16) % 256, (v >>> 8) % 256, v % 256]

/-- Function `ExtractEventInfo` extracts cpu and timestamp from the raw data event. -/
def ExtractEventInfo (bo : ByteOrder) (data : List Nat) : Nat × Nat × Option Error :=
  if data.length < 16 then
    (0, 0, some Error.ErrNotEnoughData)
  else
    (bo.Uint64 (slice data 0 8), bo.Uint64 (slice data 8 16), none)

/-! ## Library functions of the Go standard library used by the model -/

/-- Go `path.Base`: the last element of a slash-separated path, `"."` for the empty path
and `"/"` for a path of slashes only. -/
def pathBase (p : String) : String :=
  if p = "" then "."
  else
    -- strip trailing slashes
    let stripped := (p.toList.reverse.dropWhile (fun c => c = '/')).reverse
    -- keep what follows the last slash
    let last := (stripped.reverse.takeWhile (fun c => c ≠ '/')).reverse
    -- if empty now, it had only slashes
    if last = [] then "/" else String.mk last

/-- Go `bytes.Trim(s, cutset)` for a one-byte cutset `c`: all leading and all trailing
bytes equal to `c` are removed. -/
def bytesTrim (s : List Nat) (c : Nat) : List Nat :=
  ((s.dropWhile (fun b => b = c)).reverse.dropWhile (fun b => b = c)).reverse

/-- The scan of `strings.Split` for a one-byte separator: `cur` holds, reversed, the bytes
of the fragment being read. -/
def splitAux (sep : Nat) : List Nat → List Nat → List (List Nat)
  | [], cur => [cur.reverse]
  | c :: cs, cur =>
    if c = sep then cur.reverse :: splitAux sep cs [] else splitAux sep cs (c :: cur)

/-- Go `strings.Split(s, sep)` for a one-byte separator: `s` cut at every occurrence of
`sep`, the separators dropped. -/
def stringsSplit (s : List Nat) (sep : Nat) : List (List Nat) := splitAux sep s []

/-- Go conversion `int(v)` of a `uint64` value `v`, `int` being 64 bits wide: the
two's-complement reading of the 64 bits, negative from `2 ^ 63` on. -/
def intOfUint64 (v : Nat) : Int :=
  if v % 2 ^ 64 < 2 ^ 63 then ((v % 2 ^ 64 : Nat) : Int)
  else ((v % 2 ^ 64 : Nat) : Int) - 2 ^ 64

/-- Go `time.Time`, as the offset from the zero instant (January 1, year 1, 00:00:00 UTC). -/
structure Time where
  sec : Int := 0
  nsec : Nat := 0
  deriving DecidableEq, Repr

/-- Go `Time.IsZero`. -/
def Time.IsZero (t : Time) : Bool := t.sec == 0 && t.nsec == 0

/-! ## Data model (`pkg/security/model`): the fields the probe model reads and writes

Every field has the Go zero value as its default, so `{}` is the zero value of a
structure. -/

/-- Fields of `model.FileFields`. -/
structure FileFields where
  UID : Nat := 0
  User : String := ""
  GID : Nat := 0
  Group : String := ""
  MountID : Nat := 0
  Inode : Nat := 0
  PathID : Nat := 0
  Flags : Nat := 0
  deriving DecidableEq, Repr

/-- Fields of `model.FileEvent`; `FileFields` is embedded. -/
structure FileEvent where
  FileFields : FileFields := {}
  PathnameStr : String := ""
  ContainerPath : String := ""
  BasenameStr : String := ""
  deriving DecidableEq, Repr

/-- Fields of `model.SetXAttrEvent`: the raw name buffer and the two strings parsed
from it. -/
structure SetXAttrEvent where
  Namespace : List Nat := []
  Name : List Nat := []
  NameRaw : List Nat := []
  deriving DecidableEq, Repr

/-- Fields of `model.MountEvent`. -/
structure MountEvent where
  ParentMountID : Nat := 0
  ParentInode : Nat := 0
  MountPointStr : String := ""
  MountPointPathResolutionError : Option Error := none
  RootMountID : Nat := 0
  RootInode : Nat := 0
  RootStr : String := ""
  RootPathResolutionError : Option Error := none
  deriving DecidableEq, Repr

/-- Fields of `model.ContainerContext`. -/
structure ContainerContext where
  ID : String := ""
  deriving DecidableEq, Repr

/-- Fields of `model.ChownEvent`. -/
structure ChownEvent where
  UID : Nat := 0
  User : String := ""
  GID : Nat := 0
  Group : String := ""
  deriving DecidableEq, Repr

/-- Fields of `model.SetuidEvent`. -/
structure SetuidEvent where
  UID : Nat := 0
  User : String := ""
  EUID : Nat := 0
  EUser : String := ""
  FSUID : Nat := 0
  FSUser : String := ""
  deriving DecidableEq, Repr

/-- Fields of `model.SetgidEvent`. -/
structure SetgidEvent where
  GID : Nat := 0
  Group : String := ""
  EGID : Nat := 0
  EGroup : String := ""
  FSGID : Nat := 0
  FSGroup : String := ""
  deriving DecidableEq, Repr

/-- Fields of `model.Credentials`. -/
structure Credentials where
  UID : Nat := 0
  GID : Nat := 0
  User : String := ""
  Group : String := ""
  EUID : Nat := 0
  EGID : Nat := 0
  EUser : String := ""
  EGroup : String := ""
  FSUID : Nat := 0
  FSGID : Nat := 0
  FSUser : String := ""
  FSGroup : String := ""
  CapEffective : Nat := 0
  CapPermitted : Nat := 0
  deriving DecidableEq, Repr

/-- Fields of `model.Process`; `Credentials` is embedded. -/
structure Process where
  FileFields : FileFields := {}
  PathnameStr : String := ""
  ContainerPath : String := ""
  BasenameStr : String := ""
  Filesystem : String := ""
  TTYName : String := ""
  Comm : String := ""
  Cookie : Nat := 0
  PPid : Nat := 0
  Credentials : Credentials := {}
  deriving DecidableEq, Repr

/-- Fields of `model.ExecEvent` written by the probe model. -/
structure ExecEvent where
  FileFields : FileFields := {}
  Args : String := ""
  Envs : List String := []
  deriving DecidableEq, Repr

/-- Fields of `model.ProcessContext`. `Ancestor` is a pointer to the parent's process cache
entry; it is only ever copied, so it is kept as an opaque reference (`none` is `nil`). -/
structure ProcessContext where
  Process : Process := {}
  Pid : Nat := 0
  Tid : Nat := 0
  Ancestor : Option Nat := none
  ArgsArray : List String := []
  ArgsTruncated : Bool := false
  EnvsArray : List String := []
  EnvsTruncated : Bool := false
  deriving DecidableEq, Repr

/-- The structure `model.ProcessCacheEntry`: a container context and a process context. -/
structure ProcessCacheEntry where
  ContainerContext : ContainerContext := {}
  ProcessContext : ProcessContext := {}
  deriving DecidableEq, Repr

/-! ## Resolvers

The resolvers live outside this file. Each method is a function of the resolvers' own
state `σ`, returning its Go results and the next state, so that any behaviour (caching,
failure, answers that change from call to call) is covered. Every invocation of a
resolver method is recorded in a call log. -/

/-- One invocation of a resolver method, with its arguments. -/
inductive Call where
  | resolveInode (f : FileFields)
  | resolveBasename (f : FileFields)
  | resolveContainerPath (f : FileFields)
  | GetFilesystem (mountID : Nat)
  | DentryResolve (mountID inode pathID : Nat)
  | ResolveUser (uid : Nat)
  | ResolveGroup (gid : Nat)
  | ProcessResolve (pid tid : Nat)
  | SetTTY (entry : ProcessCacheEntry)
  | unmarshalProcessCacheEntry (entry : ProcessCacheEntry) (data : List Nat) (reset : Bool)
  | ResolveMonotonicTimestamp (raw : Nat)
  deriving DecidableEq, Repr

/-- Methods of `MountResolver` used by the event model. -/
structure MountResolver (σ : Type) where
  GetFilesystem : Nat → σ → String × σ

/-- Methods of `DentryResolver` used by the event model. -/
structure DentryResolver (σ : Type) where
  Resolve : Nat → Nat → Nat → σ → (String × Option Error) × σ

/-- Methods of `UserGroupResolver` used by the event model. -/
structure UserGroupResolver (σ : Type) where
  ResolveUser : Nat → σ → (String × Option Error) × σ
  ResolveGroup : Nat → σ → (String × Option Error) × σ

/-- Methods of `ProcessResolver` used by the event model. `Resolve` returns a pointer
(`none` is `nil`); `SetTTY` and `unmarshalProcessCacheEntry` write through the entry
pointer they are given, so they return the entry as they leave it. -/
structure ProcessResolver (σ : Type) where
  Resolve : Nat → Nat → σ → Option ProcessCacheEntry × σ
  SetTTY : ProcessCacheEntry → σ → (String × ProcessCacheEntry) × σ
  unmarshalProcessCacheEntry :
    ProcessCacheEntry → List Nat → Bool → σ → ((Int × Option Error) × ProcessCacheEntry) × σ

/-- Methods of `TimeResolver` used by the event model. -/
structure TimeResolver (σ : Type) where
  ResolveMonotonicTimestamp : Nat → σ → Time × σ

/-- The `Resolvers` facade: its own three file helpers, which read the `FileFields` they
point to, and the resolvers it aggregates. -/
structure Resolvers (σ : Type) where
  resolveInode : FileFields → σ → (String × Option Error) × σ
  resolveBasename : FileFields → σ → String × σ
  resolveContainerPath : FileFields → σ → String × σ
  MountResolver : MountResolver σ
  DentryResolver : DentryResolver σ
  UserGroupResolver : UserGroupResolver σ
  ProcessResolver : ProcessResolver σ
  TimeResolver : TimeResolver σ

/-- Everything outside the event: the resolvers' state and the log of the resolver
methods invoked so far. -/
structure World (σ : Type) where
  state : σ
  calls : List Call

/-- Invoke the resolver method `m`, logging the invocation as `c`. -/
def World.invoke {σ α : Type} (w : World σ) (c : Call) (m : σ → α × σ) : α × World σ :=
  ((m w.state).1, { state := (m w.state).2, calls := w.calls ++ [c] })

/-! ## The probe event -/

/-- The structure `probe.Event`: the fields of the embedded `model.Event` that the
methods below touch on the receiver, the resolvers, the resolved process cache entry
(`none` is `nil`) and the path resolution error. The event bodies handed to the accessors
by pointer (`*model.FileEvent`, `*model.Credentials`, ...) are separate values. -/
structure Event (σ : Type) where
  TimestampRaw : Nat := 0
  Timestamp : Time := {}
  ProcessContext : ProcessContext := {}
  ContainerContext : ContainerContext := {}
  Exec : ExecEvent := {}
  resolvers : Resolvers σ
  processCacheEntry : Option ProcessCacheEntry := none
  pathResolutionError : Option Error := none

/-- What a method of `Event` leaves behind: its Go return value, the receiver, the value
its pointer argument points to (`Unit` when it has none), and the world. Receivers are
non-nil events, so the `ev != nil` conjunct of the guards in the source always holds. -/
structure Ret (σ V O : Type) where
  val : O
  ev : Event σ
  arg : V
  world : World σ

variable {σ : Type}

/-- Method `GetPathResolutionError` returns the path resolution error if there is one. -/
def Event.GetPathResolutionError (ev : Event σ) : Option Error := ev.pathResolutionError

/-- Method `SetPathResolutionError` sets the `Event.pathResolutionError`. -/
def Event.SetPathResolutionError (ev : Event σ) (err : Option Error) : Event σ :=
  { ev with pathResolutionError := err }

/-- Method `ResolveFileInode` resolves the inode to a full path. -/
def Event.ResolveFileInode (ev : Event σ) (f : FileEvent) (w : World σ) :
    Ret σ FileEvent String :=
  if f.PathnameStr = "" then
    let r := w.invoke (.resolveInode f.FileFields) (ev.resolvers.resolveInode f.FileFields)
    let path := r.1.1
    let err := r.1.2
    let ev1 :=
      match err with
      | some .ErrTruncatedSegment => ev.SetPathResolutionError err
      | some .ErrTruncatedParents => ev.SetPathResolutionError err
      | _ => ev
    let f1 := { f with PathnameStr := path }
    ⟨f1.PathnameStr, ev1, f1, r.2⟩
  else ⟨f.PathnameStr, ev, f, w⟩

/-- Method `ResolveFileBasename` resolves the basename of the file. -/
def Event.ResolveFileBasename (ev : Event σ) (f : FileEvent) (w : World σ) :
    Ret σ FileEvent String :=
  if f.BasenameStr = "" then
    if f.PathnameStr ≠ "" then
      let f1 := { f with BasenameStr := pathBase f.PathnameStr }
      ⟨f1.BasenameStr, ev, f1, w⟩
    else
      let r := w.invoke (.resolveBasename f.FileFields)
        (ev.resolvers.resolveBasename f.FileFields)
      let f1 := { f with BasenameStr := r.1 }
      ⟨f1.BasenameStr, ev, f1, r.2⟩
  else ⟨f.BasenameStr, ev, f, w⟩

/-- Method `ResolveFileContainerPath` resolves the path of the file relative to its container. -/
def Event.ResolveFileContainerPath (ev : Event σ) (f : FileEvent) (w : World σ) :
    Ret σ FileEvent String :=
  if f.ContainerPath = "" then
    let r := w.invoke (.resolveContainerPath f.FileFields)
      (ev.resolvers.resolveContainerPath f.FileFields)
    let f1 := { f with ContainerPath := r.1 }
    ⟨f1.ContainerPath, ev, f1, r.2⟩
  else ⟨f.ContainerPath, ev, f, w⟩

/-- Method `ResolveFileFilesystem` resolves the filesystem a file resides in. -/
def Event.ResolveFileFilesystem (ev : Event σ) (f : FileEvent) (w : World σ) :
    Ret σ FileEvent String :=
  let r := w.invoke (.GetFilesystem f.FileFields.MountID)
    (ev.resolvers.MountResolver.GetFilesystem f.FileFields.MountID)
  ⟨r.1, ev, f, r.2⟩

/-- Method `GetXAttrName` returns the string representation of the extended attribute name. -/
def Event.GetXAttrName (_ev : Event σ) (e : SetXAttrEvent) : List Nat × SetXAttrEvent :=
  if e.Name.length = 0 then
    let e1 := { e with Name := bytesTrim e.NameRaw 0 }
    (e1.Name, e1)
  else (e.Name, e)

/-- Method `GetXAttrNamespace` returns the string representation of the extended attribute
namespace. -/
def Event.GetXAttrNamespace (ev : Event σ) (e : SetXAttrEvent) : List Nat × SetXAttrEvent :=
  if e.Namespace.length = 0 then
    let r := ev.GetXAttrName e
    let fragments := stringsSplit r.1 46
    match fragments with
    | first :: _ =>
      let e1 := { r.2 with Namespace := first }
      (e1.Namespace, e1)
    | [] => (r.2.Namespace, r.2)
  else (e.Namespace, e)

/-- Method `ResolveMountPoint` resolves the mountpoint to a full path. -/
def Event.ResolveMountPoint (ev : Event σ) (e : MountEvent) (w : World σ) :
    Ret σ MountEvent String :=
  if e.MountPointStr = "" then
    let r := w.invoke (.DentryResolve e.ParentMountID e.ParentInode 0)
      (ev.resolvers.DentryResolver.Resolve e.ParentMountID e.ParentInode 0)
    let e1 := { e with MountPointStr := r.1.1, MountPointPathResolutionError := r.1.2 }
    ⟨e1.MountPointStr, ev, e1, r.2⟩
  else ⟨e.MountPointStr, ev, e, w⟩

/-- Method `ResolveMountRoot` resolves the root of the mount to a full path. -/
def Event.ResolveMountRoot (ev : Event σ) (e : MountEvent) (w : World σ) :
    Ret σ MountEvent String :=
  if e.RootStr = "" then
    let r := w.invoke (.DentryResolve e.RootMountID e.RootInode 0)
      (ev.resolvers.DentryResolver.Resolve e.RootMountID e.RootInode 0)
    let e1 := { e with RootStr := r.1.1, RootPathResolutionError := r.1.2 }
    ⟨e1.RootStr, ev, e1, r.2⟩
  else ⟨e.RootStr, ev, e, w⟩

/-- Function `NewProcessCacheEntry` returns an empty instance of `ProcessCacheEntry`. -/
def NewProcessCacheEntry : ProcessCacheEntry := {}

/-- Method `setProcessContextWithProcessCacheEntry` copies the ancestry view of `entry` onto the
process context of the event. -/
def Event.setProcessContextWithProcessCacheEntry (ev : Event σ) (entry : ProcessCacheEntry) :
    Event σ :=
  { ev with ProcessContext :=
      { ev.ProcessContext with
        Ancestor := entry.ProcessContext.Ancestor
        ArgsArray := entry.ProcessContext.ArgsArray
        ArgsTruncated := entry.ProcessContext.ArgsTruncated
        EnvsArray := entry.ProcessContext.EnvsArray
        EnvsTruncated := entry.ProcessContext.EnvsTruncated } }

/-- Method `ResolveProcessCacheEntry` queries the `ProcessResolver` to retrieve the
`ProcessCacheEntry` of the event. The result is a pointer; `none` is `nil`. -/
def Event.ResolveProcessCacheEntry (ev : Event σ) (w : World σ) :
    Ret σ Unit (Option ProcessCacheEntry) :=
  let filled : Event σ × World σ :=
    if ev.processCacheEntry = none then
      let r := w.invoke (.ProcessResolve ev.ProcessContext.Pid ev.ProcessContext.Tid)
        (ev.resolvers.ProcessResolver.Resolve ev.ProcessContext.Pid ev.ProcessContext.Tid)
      let ev1 := { ev with processCacheEntry := r.1 }
      let ev2 :=
        if ev1.processCacheEntry = none then
          { ev1 with processCacheEntry := some ({} : ProcessCacheEntry) }
        else ev1
      (ev2, r.2)
    else (ev, w)
  match filled.1.processCacheEntry with
  | some entry =>
    ⟨some entry, filled.1.setProcessContextWithProcessCacheEntry entry, (), filled.2⟩
  | none => ⟨none, filled.1, (), filled.2⟩

/-- Method `ResolveContainerID` resolves the container ID of the event. -/
def Event.ResolveContainerID (ev : Event σ) (e : Probe.ContainerContext) (w : World σ) :
    Ret σ Probe.ContainerContext String :=
  if e.ID = "" then
    let r := ev.ResolveProcessCacheEntry w
    match r.val with
    | some entry =>
      let e1 := { e with ID := entry.ContainerContext.ID }
      ⟨e1.ID, r.ev, e1, r.world⟩
    | none => ⟨e.ID, r.ev, e, r.world⟩
  else ⟨e.ID, ev, e, w⟩

/-- Method `UnmarshalProcess` unmarshals a process: it resets the process cache entry of the
event, has the process resolver fill the new entry from `data`, and on success copies
the file fields of the entry into the exec event. -/
def Event.UnmarshalProcess (ev : Event σ) (data : List Nat) (w : World σ) :
    Ret σ Unit (Int × Option Error) :=
  -- reset the process cache entry of the current event
  let entry := NewProcessCacheEntry
  let entry := { entry with ContainerContext := ev.ContainerContext }
  let entry := { entry with
    ProcessContext := { Pid := ev.ProcessContext.Pid, Tid := ev.ProcessContext.Tid } }
  let ev1 := { ev with processCacheEntry := some entry }
  let r := w.invoke (.unmarshalProcessCacheEntry entry data false)
    (ev1.resolvers.ProcessResolver.unmarshalProcessCacheEntry entry data false)
  let n := r.1.1.1
  let err := r.1.1.2
  -- the unmarshaller wrote through the pointer held by the event
  let ev2 := { ev1 with processCacheEntry := some r.1.2 }
  if err ≠ none then ⟨(n, err), ev2, (), r.2⟩
  else
    let ev3 := { ev2 with
      Exec := { ev2.Exec with FileFields := r.1.2.ProcessContext.Process.FileFields } }
    ⟨(n, none), ev3, (), r.2⟩

/-- Method `ResolveUser` resolves the user id of the file to a username. -/
def Event.ResolveUser (ev : Event σ) (e : FileFields) (w : World σ) :
    Ret σ FileFields String :=
  if e.User = "" then
    let r := w.invoke (.ResolveUser e.UID) (ev.resolvers.UserGroupResolver.ResolveUser e.UID)
    let e1 := { e with User := r.1.1 }
    ⟨e1.User, ev, e1, r.2⟩
  else ⟨e.User, ev, e, w⟩

/-- Method `ResolveGroup` resolves the group id of the file to a group name. -/
def Event.ResolveGroup (ev : Event σ) (e : FileFields) (w : World σ) :
    Ret σ FileFields String :=
  if e.Group = "" then
    let r := w.invoke (.ResolveGroup e.GID) (ev.resolvers.UserGroupResolver.ResolveGroup e.GID)
    let e1 := { e with Group := r.1.1 }
    ⟨e1.Group, ev, e1, r.2⟩
  else ⟨e.Group, ev, e, w⟩

/-- Method `ResolveChownUID` resolves the user id of a chown event to a username. -/
def Event.ResolveChownUID (ev : Event σ) (e : ChownEvent) (w : World σ) :
    Ret σ ChownEvent String :=
  if e.User = "" then
    let r := w.invoke (.ResolveUser e.UID) (ev.resolvers.UserGroupResolver.ResolveUser e.UID)
    let e1 := { e with User := r.1.1 }
    ⟨e1.User, ev, e1, r.2⟩
  else ⟨e.User, ev, e, w⟩

/-- Method `ResolveChownGID` resolves the group id of a chown event to a group name. -/
def Event.ResolveChownGID (ev : Event σ) (e : ChownEvent) (w : World σ) :
    Ret σ ChownEvent String :=
  if e.Group = "" then
    let r := w.invoke (.ResolveGroup e.GID) (ev.resolvers.UserGroupResolver.ResolveGroup e.GID)
    let e1 := { e with Group := r.1.1 }
    ⟨e1.Group, ev, e1, r.2⟩
  else ⟨e.Group, ev, e, w⟩

/-- Method `ResolveProcessPPID` resolves the parent process ID. -/
def Event.ResolveProcessPPID (ev : Event σ) (e : Process) (w : World σ) :
    Ret σ Process Nat :=
  if e.PPid = 0 then
    let r := ev.ResolveProcessCacheEntry w
    match r.val with
    | some entry =>
      let e1 := { e with PPid := entry.ProcessContext.Process.PPid }
      ⟨e1.PPid, r.ev, e1, r.world⟩
    | none => ⟨e.PPid, r.ev, e, r.world⟩
  else ⟨e.PPid, ev, e, w⟩

/-- Method `ResolveProcessInode` resolves the executable inode to a full path. -/
def Event.ResolveProcessInode (ev : Event σ) (e : Process) (w : World σ) :
    Ret σ Process String :=
  if e.PathnameStr = "" then
    let r := ev.ResolveProcessCacheEntry w
    match r.val with
    | some entry =>
      let e1 := { e with PathnameStr := entry.ProcessContext.Process.PathnameStr }
      ⟨e1.PathnameStr, r.ev, e1, r.world⟩
    | none => ⟨e.PathnameStr, r.ev, e, r.world⟩
  else ⟨e.PathnameStr, ev, e, w⟩

/-- Method `ResolveProcessContainerPath` resolves the inode to a path relative to the container. -/
def Event.ResolveProcessContainerPath (ev : Event σ) (e : Process) (w : World σ) :
    Ret σ Process String :=
  if e.ContainerPath = "" then
    let r := ev.ResolveProcessCacheEntry w
    match r.val with
    | some entry =>
      let e1 := { e with ContainerPath := entry.ProcessContext.Process.ContainerPath }
      ⟨e1.ContainerPath, r.ev, e1, r.world⟩
    | none => ⟨e.ContainerPath, r.ev, e, r.world⟩
  else ⟨e.ContainerPath, ev, e, w⟩

/-- Method `ResolveProcessBasename` resolves the inode to a filename. -/
def Event.ResolveProcessBasename (ev : Event σ) (e : Process) (w : World σ) :
    Ret σ Process String :=
  if e.BasenameStr = "" then
    let r : Ret σ Process String :=
      if e.PathnameStr = "" then
        let r1 := ev.ResolveProcessInode e w
        ⟨r1.val, r1.ev, { r1.arg with PathnameStr := r1.val }, r1.world⟩
      else ⟨e.PathnameStr, ev, e, w⟩
    let e2 := { r.arg with BasenameStr := pathBase r.arg.PathnameStr }
    ⟨e2.BasenameStr, r.ev, e2, r.world⟩
  else ⟨e.BasenameStr, ev, e, w⟩

/-- Method `ResolveProcessCookie` resolves the cookie of the process. -/
def Event.ResolveProcessCookie (ev : Event σ) (e : Process) (w : World σ) :
    Ret σ Process Nat :=
  if e.Cookie = 0 then
    let r := ev.ResolveProcessCacheEntry w
    match r.val with
    | some entry =>
      let e1 := { e with Cookie := entry.ProcessContext.Process.Cookie }
      ⟨e1.Cookie, r.ev, e1, r.world⟩
    | none => ⟨e.Cookie, r.ev, e, r.world⟩
  else ⟨e.Cookie, ev, e, w⟩

/-- Method `ResolveProcessTTY` resolves the name of the process tty. `SetTTY` writes through the
entry pointer, which is the one the event holds. -/
def Event.ResolveProcessTTY (ev : Event σ) (e : Process) (w : World σ) :
    Ret σ Process String :=
  if e.TTYName = "" then
    let r := ev.ResolveProcessCacheEntry w
    match r.val with
    | some entry =>
      let t := r.world.invoke (.SetTTY entry) (r.ev.resolvers.ProcessResolver.SetTTY entry)
      let ev1 := { r.ev with processCacheEntry := some t.1.2 }
      let e1 := { e with TTYName := t.1.1 }
      ⟨e1.TTYName, ev1, e1, t.2⟩
    | none => ⟨e.TTYName, r.ev, e, r.world⟩
  else ⟨e.TTYName, ev, e, w⟩

/-- Method `ResolveProcessFilesystem` resolves the filesystem an executable resides in. -/
def Event.ResolveProcessFilesystem (ev : Event σ) (e : Process) (w : World σ) :
    Ret σ Process String :=
  if e.Filesystem = "" then
    let r := ev.ResolveProcessCacheEntry w
    match r.val with
    | some entry =>
      let t := r.world.invoke (.GetFilesystem entry.ProcessContext.Process.FileFields.MountID)
        (r.ev.resolvers.MountResolver.GetFilesystem
          entry.ProcessContext.Process.FileFields.MountID)
      let e1 := { e with Filesystem := t.1 }
      ⟨e1.Filesystem, r.ev, e1, t.2⟩
    | none => ⟨e.Filesystem, r.ev, e, r.world⟩
  else ⟨e.Filesystem, ev, e, w⟩

/-- Method `ResolveProcessComm` resolves the comm of the process. -/
def Event.ResolveProcessComm (ev : Event σ) (e : Process) (w : World σ) :
    Ret σ Process String :=
  if e.Comm = "" then
    let r := ev.ResolveProcessCacheEntry w
    match r.val with
    | some entry =>
      let e1 := { e with Comm := entry.ProcessContext.Process.Comm }
      ⟨e1.Comm, r.ev, e1, r.world⟩
    | none => ⟨e.Comm, r.ev, e, r.world⟩
  else ⟨e.Comm, ev, e, w⟩

/-- Method `ResolveCredentialsUID` resolves the user id of the process. -/
def Event.ResolveCredentialsUID (ev : Event σ) (e : Credentials) (w : World σ) :
    Ret σ Credentials Nat :=
  if e.UID = 0 then
    let r := ev.ResolveProcessCacheEntry w
    match r.val with
    | some entry =>
      let e1 := { e with UID := entry.ProcessContext.Process.Credentials.UID }
      ⟨e1.UID, r.ev, e1, r.world⟩
    | none => ⟨e.UID, r.ev, e, r.world⟩
  else ⟨e.UID, ev, e, w⟩

/-- Method `ResolveCredentialsUser` resolves the user id of the process to a username. -/
def Event.ResolveCredentialsUser (ev : Event σ) (e : Credentials) (w : World σ) :
    Ret σ Credentials String :=
  if e.User = "" then
    let r := ev.ResolveCredentialsUID e w
    let t := r.world.invoke (.ResolveUser r.val) (r.ev.resolvers.UserGroupResolver.ResolveUser r.val)
    let e1 := { r.arg with User := t.1.1 }
    ⟨e1.User, r.ev, e1, t.2⟩
  else ⟨e.User, ev, e, w⟩

/-- Method `ResolveCredentialsGID` resolves the group id of the process. -/
def Event.ResolveCredentialsGID (ev : Event σ) (e : Credentials) (w : World σ) :
    Ret σ Credentials Nat :=
  if e.GID = 0 then
    let r := ev.ResolveProcessCacheEntry w
    match r.val with
    | some entry =>
      let e1 := { e with GID := entry.ProcessContext.Process.Credentials.GID }
      ⟨e1.GID, r.ev, e1, r.world⟩
    | none => ⟨e.GID, r.ev, e, r.world⟩
  else ⟨e.GID, ev, e, w⟩

/-- Method `ResolveCredentialsGroup` resolves the group id of the process to a group name. -/
def Event.ResolveCredentialsGroup (ev : Event σ) (e : Credentials) (w : World σ) :
    Ret σ Credentials String :=
  if e.Group = "" then
    let r := ev.ResolveCredentialsGID e w
    let t := r.world.invoke (.ResolveGroup r.val) (r.ev.resolvers.UserGroupResolver.ResolveGroup r.val)
    let e1 := { r.arg with Group := t.1.1 }
    ⟨e1.Group, r.ev, e1, t.2⟩
  else ⟨e.Group, ev, e, w⟩

/-- Method `ResolveCredentialsEUID` resolves the effective user id of the process. -/
def Event.ResolveCredentialsEUID (ev : Event σ) (e : Credentials) (w : World σ) :
    Ret σ Credentials Nat :=
  if e.EUID = 0 then
    let r := ev.ResolveProcessCacheEntry w
    match r.val with
    | some entry =>
      let e1 := { e with EUID := entry.ProcessContext.Process.Credentials.EUID }
      ⟨e1.EUID, r.ev, e1, r.world⟩
    | none => ⟨e.EUID, r.ev, e, r.world⟩
  else ⟨e.EUID, ev, e, w⟩

/-- Method `ResolveCredentialsEUser` resolves the effective user id of the process to a username. -/
def Event.ResolveCredentialsEUser (ev : Event σ) (e : Credentials) (w : World σ) :
    Ret σ Credentials String :=
  if e.EUser = "" then
    let r := ev.ResolveCredentialsEUID e w
    let t := r.world.invoke (.ResolveUser r.val) (r.ev.resolvers.UserGroupResolver.ResolveUser r.val)
    let e1 := { r.arg with EUser := t.1.1 }
    ⟨e1.EUser, r.ev, e1, t.2⟩
  else ⟨e.EUser, ev, e, w⟩

/-- Method `ResolveCredentialsEGID` resolves the effective group id of the process. -/
def Event.ResolveCredentialsEGID (ev : Event σ) (e : Credentials) (w : World σ) :
    Ret σ Credentials Nat :=
  if e.EGID = 0 then
    let r := ev.ResolveProcessCacheEntry w
    match r.val with
    | some entry =>
      let e1 := { e with EGID := entry.ProcessContext.Process.Credentials.EGID }
      ⟨e1.EGID, r.ev, e1, r.world⟩
    | none => ⟨e.EGID, r.ev, e, r.world⟩
  else ⟨e.EGID, ev, e, w⟩

/-- Method `ResolveCredentialsEGroup` resolves the effective group id of the process to a group name. -/
def Event.ResolveCredentialsEGroup (ev : Event σ) (e : Credentials) (w : World σ) :
    Ret σ Credentials String :=
  if e.EGroup = "" then
    let r := ev.ResolveCredentialsEGID e w
    let t := r.world.invoke (.ResolveGroup r.val) (r.ev.resolvers.UserGroupResolver.ResolveGroup r.val)
    let e1 := { r.arg with EGroup := t.1.1 }
    ⟨e1.EGroup, r.ev, e1, t.2⟩
  else ⟨e.EGroup, ev, e, w⟩

/-- Method `ResolveCredentialsFSUID` resolves the file-system user id of the process. -/
def Event.ResolveCredentialsFSUID (ev : Event σ) (e : Credentials) (w : World σ) :
    Ret σ Credentials Nat :=
  if e.FSUID = 0 then
    let r := ev.ResolveProcessCacheEntry w
    match r.val with
    | some entry =>
      let e1 := { e with FSUID := entry.ProcessContext.Process.Credentials.FSUID }
      ⟨e1.FSUID, r.ev, e1, r.world⟩
    | none => ⟨e.FSUID, r.ev, e, r.world⟩
  else ⟨e.FSUID, ev, e, w⟩

/-- Method `ResolveCredentialsFSUser` resolves the file-system user id of the process to a username. -/
def Event.ResolveCredentialsFSUser (ev : Event σ) (e : Credentials) (w : World σ) :
    Ret σ Credentials String :=
  if e.FSUser = "" then
    let r := ev.ResolveCredentialsFSUID e w
    let t := r.world.invoke (.ResolveUser r.val) (r.ev.resolvers.UserGroupResolver.ResolveUser r.val)
    let e1 := { r.arg with FSUser := t.1.1 }
    ⟨e1.FSUser, r.ev, e1, t.2⟩
  else ⟨e.FSUser, ev, e, w⟩

/-- Method `ResolveCredentialsFSGID` resolves the file-system group id of the process. -/
def Event.ResolveCredentialsFSGID (ev : Event σ) (e : Credentials) (w : World σ) :
    Ret σ Credentials Nat :=
  if e.FSGID = 0 then
    let r := ev.ResolveProcessCacheEntry w
    match r.val with
    | some entry =>
      let e1 := { e with FSGID := entry.ProcessContext.Process.Credentials.FSGID }
      ⟨e1.FSGID, r.ev, e1, r.world⟩
    | none => ⟨e.FSGID, r.ev, e, r.world⟩
  else ⟨e.FSGID, ev, e, w⟩

/-- Method `ResolveCredentialsFSGroup` resolves the file-system group id of the process to a group name. -/
def Event.ResolveCredentialsFSGroup (ev : Event σ) (e : Credentials) (w : World σ) :
    Ret σ Credentials String :=
  if e.FSGroup = "" then
    let r := ev.ResolveCredentialsFSGID e w
    let t := r.world.invoke (.ResolveGroup r.val) (r.ev.resolvers.UserGroupResolver.ResolveGroup r.val)
    let e1 := { r.arg with FSGroup := t.1.1 }
    ⟨e1.FSGroup, r.ev, e1, t.2⟩
  else ⟨e.FSGroup, ev, e, w⟩

/-- Method `ResolveCredentialsCapEffective` resolves the cap_effective kernel capability of the
process. The field is a `uint64` and the method returns `int(e.CapEffective)`. -/
def Event.ResolveCredentialsCapEffective (ev : Event σ) (e : Credentials) (w : World σ) :
    Ret σ Credentials Int :=
  if e.CapEffective = 0 then
    let r := ev.ResolveProcessCacheEntry w
    match r.val with
    | some entry =>
      let e1 := { e with CapEffective := entry.ProcessContext.Process.Credentials.CapEffective }
      ⟨intOfUint64 e1.CapEffective, r.ev, e1, r.world⟩
    | none => ⟨intOfUint64 e.CapEffective, r.ev, e, r.world⟩
  else ⟨intOfUint64 e.CapEffective, ev, e, w⟩

/-- Method `ResolveCredentialsCapPermitted` resolves the cap_permitted kernel capability of the
process. The field is a `uint64` and the method returns `int(e.CapPermitted)`. -/
def Event.ResolveCredentialsCapPermitted (ev : Event σ) (e : Credentials) (w : World σ) :
    Ret σ Credentials Int :=
  if e.CapPermitted = 0 then
    let r := ev.ResolveProcessCacheEntry w
    match r.val with
    | some entry =>
      let e1 := { e with CapPermitted := entry.ProcessContext.Process.Credentials.CapPermitted }
      ⟨intOfUint64 e1.CapPermitted, r.ev, e1, r.world⟩
    | none => ⟨intOfUint64 e.CapPermitted, r.ev, e, r.world⟩
  else ⟨intOfUint64 e.CapPermitted, ev, e, w⟩

/-- Method `ResolveSetuidUser` resolves the user of the Setuid event. -/
def Event.ResolveSetuidUser (ev : Event σ) (e : SetuidEvent) (w : World σ) :
    Ret σ SetuidEvent String :=
  if e.User = "" then
    let r := w.invoke (.ResolveUser e.UID) (ev.resolvers.UserGroupResolver.ResolveUser e.UID)
    let e1 := { e with User := r.1.1 }
    ⟨e1.User, ev, e1, r.2⟩
  else ⟨e.User, ev, e, w⟩

/-- Method `ResolveSetuidEUser` resolves the effective user of the Setuid event. -/
def Event.ResolveSetuidEUser (ev : Event σ) (e : SetuidEvent) (w : World σ) :
    Ret σ SetuidEvent String :=
  if e.EUser = "" then
    let r := w.invoke (.ResolveUser e.EUID) (ev.resolvers.UserGroupResolver.ResolveUser e.EUID)
    let e1 := { e with EUser := r.1.1 }
    ⟨e1.EUser, ev, e1, r.2⟩
  else ⟨e.EUser, ev, e, w⟩

/-- Method `ResolveSetuidFSUser` resolves the file-system user of the Setuid event. -/
def Event.ResolveSetuidFSUser (ev : Event σ) (e : SetuidEvent) (w : World σ) :
    Ret σ SetuidEvent String :=
  if e.FSUser = "" then
    let r := w.invoke (.ResolveUser e.FSUID) (ev.resolvers.UserGroupResolver.ResolveUser e.FSUID)
    let e1 := { e with FSUser := r.1.1 }
    ⟨e1.FSUser, ev, e1, r.2⟩
  else ⟨e.FSUser, ev, e, w⟩

/-- Method `ResolveSetgidGroup` resolves the group of the Setgid event. -/
def Event.ResolveSetgidGroup (ev : Event σ) (e : SetgidEvent) (w : World σ) :
    Ret σ SetgidEvent String :=
  if e.Group = "" then
    let r := w.invoke (.ResolveUser e.GID) (ev.resolvers.UserGroupResolver.ResolveUser e.GID)
    let e1 := { e with Group := r.1.1 }
    ⟨e1.Group, ev, e1, r.2⟩
  else ⟨e.Group, ev, e, w⟩

/-- Method `ResolveSetgidEGroup` resolves the effective group of the Setgid event. -/
def Event.ResolveSetgidEGroup (ev : Event σ) (e : SetgidEvent) (w : World σ) :
    Ret σ SetgidEvent String :=
  if e.EGroup = "" then
    let r := w.invoke (.ResolveUser e.EGID) (ev.resolvers.UserGroupResolver.ResolveUser e.EGID)
    let e1 := { e with EGroup := r.1.1 }
    ⟨e1.EGroup, ev, e1, r.2⟩
  else ⟨e.EGroup, ev, e, w⟩

/-- Method `ResolveSetgidFSGroup` resolves the file-system group of the Setgid event. -/
def Event.ResolveSetgidFSGroup (ev : Event σ) (e : SetgidEvent) (w : World σ) :
    Ret σ SetgidEvent String :=
  if e.FSGroup = "" then
    let r := w.invoke (.ResolveUser e.FSGID) (ev.resolvers.UserGroupResolver.ResolveUser e.FSGID)
    let e1 := { e with FSGroup := r.1.1 }
    ⟨e1.FSGroup, ev, e1, r.2⟩
  else ⟨e.FSGroup, ev, e, w⟩

/-- Method `ResolveEventTimestamp` resolves the monotonic kernel event timestamp to an absolute
time. `timeNow` is Go `time.Now`, a reading of the wall clock in the current state of the
world. -/
def Event.ResolveEventTimestamp (timeNow : σ → Time) (ev : Event σ) (w : World σ) :
    Ret σ Unit Time :=
  if ev.Timestamp.IsZero then
    let r := w.invoke (.ResolveMonotonicTimestamp ev.TimestampRaw)
      (ev.resolvers.TimeResolver.ResolveMonotonicTimestamp ev.TimestampRaw)
    let ev1 := { ev with Timestamp := r.1 }
    let ev2 := if ev1.Timestamp.IsZero then { ev1 with Timestamp := timeNow r.2.state } else ev1
    ⟨ev2.Timestamp, ev2, (), r.2⟩
  else ⟨ev.Timestamp, ev, (), w⟩

/-! ## Idempotence of an accessor -/

/-- Calling the accessor `R` twice in succession from `ev`, `e`, `w`: the second call, made
on what the first call left behind, returns the same value and invokes no resolver method
(the call log does not grow). -/
def IdempotentAt {V O : Type} (R : Event σ → V → World σ → Ret σ V O)
    (ev : Event σ) (e : V) (w : World σ) : Prop :=
  (R (R ev e w).ev (R ev e w).arg (R ev e w).world).val = (R ev e w).val ∧
  (R (R ev e w).ev (R ev e w).arg (R ev e w).world).world.calls = (R ev e w).world.calls

/-- The accessor `R` is idempotent on results satisfying `populated`. -/
def IdempotentWhen {V O : Type} (populated : O → Prop)
    (R : Event σ → V → World σ → Ret σ V O) : Prop :=
  ∀ (ev : Event σ) (e : V) (w : World σ), populated (R ev e w).val → IdempotentAt R ev e w

/-- The accessor `R` is idempotent on every event, whatever the resolvers do. -/
def Idempotent {V O : Type} (R : Event σ → V → World σ → Ret σ V O) : Prop :=
  ∀ (ev : Event σ) (e : V) (w : World σ), IdempotentAt R ev e w

/-- The accessor `R` is idempotent exactly on the calls whose result satisfies
`populated`: after such a call the second call repeats the value without a resolver
call, and after any other call the second call differs in its value or invokes a
resolver. -/
def IdempotentExactlyWhen {V O : Type} (populated : O → Prop)
    (R : Event σ → V → World σ → Ret σ V O) : Prop :=
  ∀ (ev : Event σ) (e : V) (w : World σ), IdempotentAt R ev e w ↔ populated (R ev e w).val

/-- The accessor `R` leaves the path resolution error of the event as it was. -/
def KeepsPathResolutionError {V O : Type} (R : Event σ → V → World σ → Ret σ V O) : Prop :=
  ∀ (ev : Event σ) (e : V) (w : World σ),
    (R ev e w).ev.GetPathResolutionError = ev.GetPathResolutionError

/-- A lookup of the User/Group Resolver that fails softly: an empty name together with an
error. -/
def SoftFail (r : (String × Option Error) × σ) : Prop := r.1.1 = "" ∧ r.1.2 ≠ none

/-! ## A sample host, for concrete evaluations

The resolvers of a host that knows the users `root` (0), `alice` (5) and `carol` (7), the
groups `root` (0) and `staff` (5), one process (pid 42), and whose dentry resolver truncates the path of
inode 1 and fails on inode 2. The state counts the resolver calls made. -/

/-- Lookup of a user name on the sample host. -/
def sampleUser (uid : Nat) : String × Option Error :=
  if uid = 0 then ("root", none)
  else if uid = 5 then ("alice", none)
  else if uid = 7 then ("carol", none)
  else ("", some (.other "user not found"))

/-- Lookup of a group name on the sample host. -/
def sampleGroup (gid : Nat) : String × Option Error :=
  if gid = 0 then ("root", none)
  else if gid = 5 then ("staff", none)
  else ("", some (.other "group not found"))

/-- Path resolution on the sample host. -/
def samplePath (inode : Nat) : String × Option Error :=
  if inode = 1 then ("/usr/bin/ls", some .ErrTruncatedParents)
  else if inode = 2 then ("", some (.other "dentry not found"))
  else ("/etc/passwd", none)

/-- The process cache entry of pid 42 on the sample host. -/
def sampleEntry : ProcessCacheEntry :=
  { ContainerContext := { ID := "c0ffee" }
    ProcessContext :=
      { Pid := 42, Tid := 42, ArgsArray := ["ls", "-l"]
        Process := { PathnameStr := "/usr/bin/ls", Comm := "ls", PPid := 1,
                     Credentials := { UID := 5, GID := 5 } } } }

/-- The resolvers of the sample host. -/
def sampleResolvers : Resolvers Nat where
  resolveInode := fun f s => (samplePath f.Inode, s + 1)
  resolveBasename := fun _ s => ("passwd", s + 1)
  resolveContainerPath := fun _ s => ("", s + 1)
  MountResolver := { GetFilesystem := fun id s => (if id = 7 then "ext4" else "", s + 1) }
  DentryResolver := { Resolve := fun _ inode _ s => (samplePath inode, s + 1) }
  UserGroupResolver :=
    { ResolveUser := fun uid s => (sampleUser uid, s + 1)
      ResolveGroup := fun gid s => (sampleGroup gid, s + 1) }
  ProcessResolver :=
    { Resolve := fun pid _ s => (if pid = 42 then some sampleEntry else none, s + 1)
      SetTTY := fun entry s => (("pts/0", entry), s + 1)
      unmarshalProcessCacheEntry := fun entry data _ s =>
        if data.length < 8 then (((0, some .ErrNotEnoughData), entry), s + 1)
        else (((8, none), entry), s + 1) }
  TimeResolver :=
    { ResolveMonotonicTimestamp := fun raw s =>
        (if raw = 0 then {} else { sec := 1600000000 + raw }, s + 1) }

/-- An event of process 42 on the sample host, nothing resolved yet. -/
def sampleEvent : Event Nat :=
  { resolvers := sampleResolvers, ProcessContext := { Pid := 42, Tid := 42 } }

/-- The world before any resolver call. -/
def sampleWorld : World Nat := { state := 0, calls := [] }

/-- The wall clock of the sample host. -/
def sampleNow (s : Nat) : Time := { sec := 1700000000 + s }

/-! ## Repeated resolution of the process cache entry -/

/-- The result of the last of `n + 1` calls of `ResolveProcessCacheEntry` made in
succession on the same event. -/
def Event.ResolveProcessCacheEntryAgain :
    Nat → Event σ → World σ → Ret σ Unit (Option ProcessCacheEntry)
  | 0, ev, w => ev.ResolveProcessCacheEntry w
  | n + 1, ev, w =>
    Event.ResolveProcessCacheEntryAgain n (ev.ResolveProcessCacheEntry w).ev
      (ev.ResolveProcessCacheEntry w).world

/-! ## Dentry resolver tail calls (`pkg/security/ebpf/probes`)

The constants of `const.go` are numbered by `iota`, from 0 in each `const` block. -/

/-- Constant `DentryResolverKernKey`: the key to the kernel dentry resolver tail call
program. -/
def DentryResolverKernKey : Nat := 0

/-- Constant `DentryResolverERPCKey`: the key to the eRPC dentry resolver tail call
program. -/
def DentryResolverERPCKey : Nat := 1

/-- Constant `DentryResolverOpenCallbackKey`: the key to the callback program to execute
after resolving the dentry of an open event. -/
def DentryResolverOpenCallbackKey : Nat := 0

/-- Constant `DentryResolverSetAttrCallbackKey`: the key to the callback program to execute
after resolving the dentry of a setattr event. -/
def DentryResolverSetAttrCallbackKey : Nat := 1

/-- Constant `DentryResolverMkdirCallbackKey`: the key to the callback program to execute
after resolving the dentry of a mkdir event. -/
def DentryResolverMkdirCallbackKey : Nat := 2

/-- Constant `DentryResolverMountCallbackKey`: the key to the callback program to execute
after resolving the dentry of a mount event. -/
def DentryResolverMountCallbackKey : Nat := 3

/-- Constant `DentryResolverSecurityInodeRmdirCallbackKey`: the key to the callback program to execute
after resolving the dentry of an rmdir or unlink event. -/
def DentryResolverSecurityInodeRmdirCallbackKey : Nat := 4

/-- Constant `DentryResolverSetXAttrCallbackKey`: the key to the callback program to execute
after resolving the dentry of a setxattr event. -/
def DentryResolverSetXAttrCallbackKey : Nat := 5

/-- Constant `DentryResolverUnlinkCallbackKey`: the key to the callback program to execute
after resolving the dentry of an unlink event. -/
def DentryResolverUnlinkCallbackKey : Nat := 6

/-- Constant `DentryResolverLinkSrcCallbackKey`: the key to the callback program to execute
after resolving the dentry of the source of a link event. -/
def DentryResolverLinkSrcCallbackKey : Nat := 7

/-- Constant `DentryResolverLinkDstCallbackKey`: the key to the callback program to execute
after resolving the dentry of the destination of a link event. -/
def DentryResolverLinkDstCallbackKey : Nat := 8

/-- Constant `DentryResolverRenameCallbackKey`: the key to the callback program to execute
after resolving the dentry of a rename event. -/
def DentryResolverRenameCallbackKey : Nat := 9

/-- Fields of `manager.ProbeIdentificationPair`. -/
structure ProbeIdentificationPair where
  UID : String := ""
  Section : String := ""
  deriving DecidableEq, Repr

/-- Fields of `manager.TailCallRoute` set by the probes package. -/
structure TailCallRoute where
  ProgArrayName : String := ""
  Key : Nat := 0
  ProbeIdentificationPair : ProbeIdentificationPair := {}
  deriving DecidableEq, Repr

/-- Function `getDentryResolverTailCallRoutes` is the list of routes used during the dentry
resolution process. -/
def getDentryResolverTailCallRoutes : List TailCallRoute :=
  [ -- dentry resolver programs
    { ProgArrayName := "dentry_resolver_progs"
      Key := DentryResolverKernKey
      ProbeIdentificationPair := { Section := "kprobe/dentry_resolver_kern" } },
    { ProgArrayName := "dentry_resolver_progs"
      Key := DentryResolverERPCKey
      ProbeIdentificationPair := { Section := "kprobe/dentry_resolver_erpc" } },
    -- dentry resolver callbacks
    { ProgArrayName := "dentry_resolver_callbacks"
      Key := DentryResolverOpenCallbackKey
      ProbeIdentificationPair := { Section := "kprobe/dr_open_callback" } },
    { ProgArrayName := "dentry_resolver_callbacks"
      Key := DentryResolverSetAttrCallbackKey
      ProbeIdentificationPair := { Section := "kprobe/dr_setattr_callback" } },
    { ProgArrayName := "dentry_resolver_callbacks"
      Key := DentryResolverMkdirCallbackKey
      ProbeIdentificationPair := { Section := "kprobe/dr_mkdir_callback" } },
    { ProgArrayName := "dentry_resolver_callbacks"
      Key := DentryResolverMountCallbackKey
      ProbeIdentificationPair := { Section := "kprobe/dr_mount_callback" } },
    { ProgArrayName := "dentry_resolver_callbacks"
      Key := DentryResolverSecurityInodeRmdirCallbackKey
      ProbeIdentificationPair := { Section := "kprobe/dr_security_inode_rmdir_callback" } },
    { ProgArrayName := "dentry_resolver_callbacks"
      Key := DentryResolverSetXAttrCallbackKey
      ProbeIdentificationPair := { Section := "kprobe/dr_setxattr_callback" } },
    { ProgArrayName := "dentry_resolver_callbacks"
      Key := DentryResolverUnlinkCallbackKey
      ProbeIdentificationPair := { Section := "kprobe/dr_unlink_callback" } },
    { ProgArrayName := "dentry_resolver_callbacks"
      Key := DentryResolverLinkSrcCallbackKey
      ProbeIdentificationPair := { Section := "kprobe/dr_link_src_callback" } },
    { ProgArrayName := "dentry_resolver_callbacks"
      Key := DentryResolverLinkDstCallbackKey
      ProbeIdentificationPair := { Section := "kprobe/dr_link_dst_callback" } },
    { ProgArrayName := "dentry_resolver_callbacks"
      Key := DentryResolverRenameCallbackKey
      ProbeIdentificationPair := { Section := "kprobe/dr_rename_callback" } } ]

/-! ## Event platform forwarder (`pkg/logs/epforwarder`)

A buffered channel is seen from the sending side, at the instant of the send: the messages
it buffers, oldest first, and its capacity. Pipelines are held by value, one per event
type, so two event types never share a channel. The type `M` is `*message.Message`. -/

/-- A Go buffered channel `chan M`. -/
structure Chan (M : Type) where
  buf : List M
  cap : Nat

/-- Go `make(chan M, n)`: an empty channel of capacity `n`. -/
def makeChan {M : Type} (n : Nat) : Chan M := { buf := [], cap := n }

/-- The send case of a Go `select` with a `default` case on a buffered channel: when the
buffer has room the message is queued at the tail, otherwise the send is not ready
(`none`) and the `default` case runs. -/
def Chan.trySend {M : Type} (ch : Chan M) (e : M) : Option (Chan M) :=
  if ch.buf.length < ch.cap then some { ch with buf := ch.buf ++ [e] } else none

/-- The structure `passthroughPipeline`: its input channel `in` (the sender and the auditor
play no part in sending). -/
structure passthroughPipeline (M : Type) where
  in_ : Chan M

/-- The structure `defaultEventPlatformForwarder`: the map from event type to pipeline. -/
structure defaultEventPlatformForwarder (M : Type) where
  pipelines : String → Option (passthroughPipeline M)

/-- Method `SendEventPlatformEvent`: the error returned (`none` is `nil`) and the forwarder
after the call. -/
def defaultEventPlatformForwarder.SendEventPlatformEvent {M : Type}
    (s : defaultEventPlatformForwarder M) (e : M) (eventType : String) :
    Option String × defaultEventPlatformForwarder M :=
  match s.pipelines eventType with
  | none => (some ("unknown event type: " ++ eventType), s)
  | some p =>
    match p.in_.trySend e with
    | some ch =>
      (none,
       { s with pipelines := fun k => if k = eventType then some { p with in_ := ch }
                                      else s.pipelines k })
    | none =>
      (some ("event platform forwarder pipeline channel is full for eventType=" ++ eventType
        ++ ". consider increasing batch_max_concurrent_send"), s)

/-- Function `newHTTPPassthroughPipeline`: fails unless the endpoints use HTTP, and
otherwise builds a pipeline around `make(chan *message.Message, 100)`. -/
def newHTTPPassthroughPipeline {M : Type} (UseHTTP : Bool) :
    Option (passthroughPipeline M) × Option String :=
  if !UseHTTP then (none, some "endpoints must be http")
  else
    let inputChan : Chan M := makeChan 100
    (some { in_ := inputChan }, none)

/-! ## Process module of the system probe (`cmd/system-probe/modules`) -/

/-- Go `Time.Sub`: the duration `t - u` in nanoseconds, clamped to the range of
`time.Duration`. -/
def Time.Sub (t u : Time) : Int :=
  let d := (t.sec - u.sec) * 1000000000 + ((t.nsec : Int) - (u.nsec : Int))
  if d > 2 ^ 63 - 1 then 2 ^ 63 - 1 else if d < -(2 ^ 63) then -(2 ^ 63) else d

/-- The level of a log line. -/
inductive LogLevel where
  | Debug
  | Info
  | Error
  deriving DecidableEq, Repr

/-- An argument of a log line. -/
inductive LogArg where
  | uint (n : Nat)
  | int (n : Int)
  | duration (ns : Int)
  | err (msg : String)
  deriving DecidableEq, Repr

/-- A log line: the level it is written at, its format and its arguments. -/
structure LogLine where
  level : LogLevel
  msg : String
  args : List LogArg
  deriving DecidableEq, Repr

/-- Function `logProcTracerRequests`: the line logged for the request numbered `count`;
`now` is the reading of `time.Now()`. -/
def logProcTracerRequests (now : Time) (count : Nat) (statsCount : Int) (start : Time) :
    LogLine :=
  let args := [LogArg.uint count, LogArg.int statsCount, LogArg.duration (now.Sub start)]
  let msg := "Got request on /proc/stats (count: %d): retrieved %d stats in %s"
  if count ≤ 5 ∨ count % 20 = 0 then { level := .Info, msg := msg, args := args }
  else { level := .Debug, msg := msg, args := args }

/-- One request on `/proc/stats`: the clock readings at its start and when its line is
logged, and the outcome of `StatsWithPermByPID` (the number of stats, or an error). -/
structure ProcStatsRequest where
  start : Time
  logged : Time
  stats : Except String Nat

/-- The handler registered by `Register` for `/proc/stats`: the run counter after the
request and the line logged. `atomic.AddUint64` wraps at `2 ^ 64`. -/
def procStatsHandler (req : ProcStatsRequest) (runCounter : Nat) : Nat × LogLine :=
  match req.stats with
  | .error e =>
    (runCounter,
     { level := .Error, msg := "unable to retrieve stats using process_tracer: %s",
       args := [LogArg.err e] })
  | .ok n =>
    let count := (runCounter + 1) % 2 ^ 64
    (count, logProcTracerRequests req.logged count n req.start)

/-- The lines logged by the handler over a sequence of requests, starting from the run
counter `runCounter`. -/
def procStatsLines : List ProcStatsRequest → Nat → List LogLine
  | [], _ => []
  | req :: reqs, runCounter =>
    (procStatsHandler req runCounter).2 :: procStatsLines reqs (procStatsHandler req runCounter).1

/-- A forwarder with the single pipeline of `NewEventPlatformForwarder`, for the event type
`dbm-sample`, holding the messages `buf` in a channel of capacity 100. -/
def sampleForwarder (buf : List Nat) : defaultEventPlatformForwarder Nat :=
  { pipelines := fun k =>
      if k = "dbm-sample" then some { in_ := { buf := buf, cap := 100 } } else none }

/-- A request on `/proc/stats` that retrieves 3 stats in 2 seconds. -/
def sampleRequest : ProcStatsRequest :=
  { start := { sec := 1700000000 }, logged := { sec := 1700000002 }, stats := .ok 3 }

/-! ## Zero as the mark of an unresolved number -/

/-- The numeric accessor `R` with memo slot `slot`, filled from the field `src` of the
process cache entry and returned through the conversion `conv` to `int`, uses zero as
the mark of an unresolved slot: with a non-zero slot it returns the slot and touches
nothing; with a zero slot it goes through `ResolveProcessCacheEntry`, returns and stores
the entry's value, and when that value is zero the view is left exactly as it was. -/
def ZeroSentinel {V O : Type} (R : Event σ → V → World σ → Ret σ V O) (slot : V → Nat)
    (src : ProcessCacheEntry → Nat) (conv : Nat → O) : Prop :=
  ∀ (ev : Event σ) (e : V) (w : World σ),
    (slot e ≠ 0 → R ev e w = ⟨conv (slot e), ev, e, w⟩) ∧
    (slot e = 0 →
      ∃ entry, (ev.ResolveProcessCacheEntry w).val = some entry ∧
        (R ev e w).val = conv (src entry) ∧
        slot (R ev e w).arg = src entry ∧
        (R ev e w).ev = (ev.ResolveProcessCacheEntry w).ev ∧
        (R ev e w).world = (ev.ResolveProcessCacheEntry w).world ∧
        (src entry = 0 → (R ev e w).val = conv 0 ∧ (R ev e w).arg = e))

/-! ## Theorems -/

/-- Eight little-endian bytes OR-ed together are their positional sum. -/
theorem or_shift_eq_sum (a0 a1 a2 a3 a4 a5 a6 a7 : Nat)
    (h0 : a0 < 256) (h1 : a1 < 256) (h2 : a2 < 256) (h3 : a3 < 256)
    (h4 : a4 < 256) (h5 : a5 < 256) (h6 : a6 < 256) (_h7 : a7 < 256) :
    (a0 ||| a1 <<< 8 ||| a2 <<< 16 ||| a3 <<< 24 ||| a4 <<< 32 ||| a5 <<< 40 |||
      a6 <<< 48 ||| a7 <<< 56)
    = a0 + a1 * 2 ^ 8 + a2 * 2 ^ 16 + a3 * 2 ^ 24 + a4 * 2 ^ 32 + a5 * 2 ^ 40
      + a6 * 2 ^ 48 + a7 * 2 ^ 56 := by
  have step : ∀ (i x a : Nat), x < 2 ^ i → x ||| a <<< i = x + a * 2 ^ i := by
    intro i x a hx
    rw [Nat.or_comm, Nat.shiftLeft_eq, Nat.mul_comm a, ← Nat.mul_add_lt_is_or hx a]
    omega
  rw [step 8 a0 a1 (by omega)]
  rw [step 16 _ a2 (by omega)]
  rw [step 24 _ a3 (by omega)]
  rw [step 32 _ a4 (by omega)]
  rw [step 40 _ a5 (by omega)]
  rw [step 48 _ a6 (by omega)]
  rw [step 56 _ a7 (by omega)]

/-- Reading back the eight bytes written for `v` gives `v`. -/
theorem Uint64_PutUint64 (bo : ByteOrder) (v : Nat) (hv : v < 2 ^ 64) (rest : List Nat) :
    bo.Uint64 (bo.PutUint64 v ++ rest) = v := by
  cases bo <;>
  · simp only [ByteOrder.Uint64, ByteOrder.PutUint64, byteAt, List.cons_append,
      List.getD_cons_zero, List.getD_cons_succ, Nat.mod_mod, Nat.shiftRight_eq_div_pow]
    rw [or_shift_eq_sum _ _ _ _ _ _ _ _ (Nat.mod_lt _ (by norm_num))
      (Nat.mod_lt _ (by norm_num)) (Nat.mod_lt _ (by norm_num)) (Nat.mod_lt _ (by norm_num))
      (Nat.mod_lt _ (by norm_num)) (Nat.mod_lt _ (by norm_num)) (Nat.mod_lt _ (by norm_num))
      (Nat.mod_lt _ (by norm_num))]
    norm_num at hv ⊢
    omega

/-- C1: `ExtractEventInfo` fails exactly when the buffer is shorter than 16 bytes: it then
returns `(0, 0, ErrNotEnoughData)`, and for any buffer of 16 bytes or more the error is
`nil`. -/
theorem ExtractEventInfo_error_iff_short (bo : ByteOrder) (data : List Nat) :
    (data.length < 16 →
        ExtractEventInfo bo data = (0, 0, some Error.ErrNotEnoughData)) ∧
    (16 ≤ data.length → (ExtractEventInfo bo data).2.2 = none) := by
  constructor
  · intro h
    simp [ExtractEventInfo, h]
  · intro h
    have h' : ¬ data.length < 16 := by omega
    simp [ExtractEventInfo, h']

/-- Witness for C1: a 3-byte buffer is rejected, and a 16-byte buffer is decoded. -/
theorem ExtractEventInfo_error_iff_short_witness :
    ExtractEventInfo .LittleEndian [1, 2, 3] = (0, 0, some Error.ErrNotEnoughData) ∧
    (ExtractEventInfo .LittleEndian (List.replicate 16 1)).2.2 = none :=
  ⟨(ExtractEventInfo_error_iff_short .LittleEndian [1, 2, 3]).1 (by decide),
   (ExtractEventInfo_error_iff_short .LittleEndian (List.replicate 16 1)).2 (by decide)⟩

/-- A slice that ends within the first 16 bytes reads only the first 16 bytes. -/
theorem slice_take_sixteen (data : List Nat) (lo hi : Nat) (h : hi ≤ 16) :
    slice data lo hi = slice (data.take 16) lo hi := by
  simp [slice, List.take_take, h]

/-- C2: `ExtractEventInfo` round-trips the header: on the 8-byte encoding of `cpu`
followed by the 8-byte encoding of `ts` and any trailing bytes it returns
`(cpu, ts, nil)`, whatever the trailing bytes are; and two buffers that agree on their
first 16 bytes are decoded alike. -/
theorem ExtractEventInfo_roundtrip (bo : ByteOrder) (cpu ts : Nat)
    (hcpu : cpu < 2 ^ 64) (hts : ts < 2 ^ 64) (rest : List Nat) :
    ExtractEventInfo bo (bo.PutUint64 cpu ++ bo.PutUint64 ts ++ rest) = (cpu, ts, none) ∧
    (∀ data data1 : List Nat, data.take 16 = data1.take 16 →
      ExtractEventInfo bo data = ExtractEventInfo bo data1) := by
  constructor
  · have hlen : ∀ v, (bo.PutUint64 v).length = 8 := by
      intro v; cases bo <;> rfl
    have hnot : ¬ (bo.PutUint64 cpu ++ bo.PutUint64 ts ++ rest).length < 16 := by
      simp only [List.length_append, hlen]; omega
    have h1 : slice (bo.PutUint64 cpu ++ bo.PutUint64 ts ++ rest) 0 8 = bo.PutUint64 cpu := by
      simp [slice, List.take_append_eq_append_take, hlen]
    have h2 : slice (bo.PutUint64 cpu ++ bo.PutUint64 ts ++ rest) 8 16 = bo.PutUint64 ts := by
      simp [slice, List.take_append_eq_append_take, List.drop_append_eq_append_drop, hlen]
    simp only [ExtractEventInfo, hnot, if_false, h1, h2]
    have e1 := Uint64_PutUint64 bo cpu hcpu []
    have e2 := Uint64_PutUint64 bo ts hts []
    simp only [List.append_nil] at e1 e2
    rw [e1, e2]
  · intro data data1 h
    have hl : (data.length < 16) = (data1.length < 16) := by
      have := congrArg List.length h
      simp only [List.length_take] at this
      apply propext
      omega
    unfold ExtractEventInfo
    rw [slice_take_sixteen data 0 8 (by omega), slice_take_sixteen data 8 16 (by omega),
      slice_take_sixteen data1 0 8 (by omega), slice_take_sixteen data1 8 16 (by omega),
      h]
    simp only [hl]

/-- Witness for C2: the header `cpu = 3`, `ts = 2^40 + 7` in little-endian order, followed
by two body bytes. -/
theorem ExtractEventInfo_roundtrip_witness :
    (3 < 2 ^ 64 ∧ 2 ^ 40 + 7 < 2 ^ 64) ∧
    ExtractEventInfo .LittleEndian
      (ByteOrder.PutUint64 .LittleEndian 3 ++ ByteOrder.PutUint64 .LittleEndian (2 ^ 40 + 7)
        ++ [9, 9]) = (3, 2 ^ 40 + 7, none) :=
  ⟨by norm_num,
   (ExtractEventInfo_roundtrip .LittleEndian 3 (2 ^ 40 + 7) (by norm_num) (by norm_num)
     [9, 9]).1⟩

/-! ### Idempotence of the accessors -/

/-- An accessor that returns its memo slot, and returns at once when the slot is
populated, is idempotent on populated results. -/
theorem idempotentWhen_of_memo {V O : Type} (populated : O → Prop)
    (R : Event σ → V → World σ → Ret σ V O) (slot : V → O)
    (hval : ∀ ev e w, (R ev e w).val = slot (R ev e w).arg)
    (hmemo : ∀ ev e w, populated (slot e) → R ev e w = ⟨slot e, ev, e, w⟩) :
    IdempotentWhen populated R := by
  intro ev e w h
  rw [hval] at h
  unfold IdempotentAt
  rw [hmemo _ _ _ h]
  exact ⟨(hval ev e w).symm, rfl⟩

/-- Go `path.Base` never returns the empty string. -/
theorem pathBase_ne_empty (p : String) : pathBase p ≠ "" := by
  unfold pathBase
  split
  · decide
  · dsimp only
    split
    · decide
    · rename_i h
      intro hc
      apply h
      have := congrArg String.data hc
      simpa using this

/-- C3, as stated, fails: `ResolveFileFilesystem` keeps no memo and asks the mount resolver
again on the second call, and `ResolveUser` asks the User/Group Resolver again when the
first lookup gave an empty name. The same happens on the sample host to the other
accessors that memoize the answer of a resolver, when that answer is empty: the path of
inode 2, the container path, the mount point of inode 2, the group of gid 99, the user of
a chown, setuid or credentials view with uid 99, the filesystem of the executable of
process 42, and the event timestamp when the wall clock reads zero. -/
theorem accessors_not_idempotent_in_general :
    ¬ IdempotentAt Event.ResolveFileFilesystem sampleEvent { FileFields := { MountID := 7 } }
        sampleWorld ∧
    ¬ IdempotentAt Event.ResolveUser sampleEvent { UID := 99 } sampleWorld ∧
    ¬ IdempotentAt Event.ResolveFileInode sampleEvent { FileFields := { Inode := 2 } }
        sampleWorld ∧
    ¬ IdempotentAt Event.ResolveFileContainerPath sampleEvent {} sampleWorld ∧
    ¬ IdempotentAt Event.ResolveMountPoint sampleEvent { ParentInode := 2 } sampleWorld ∧
    ¬ IdempotentAt Event.ResolveGroup sampleEvent { GID := 99 } sampleWorld ∧
    ¬ IdempotentAt Event.ResolveChownUID sampleEvent { UID := 99 } sampleWorld ∧
    ¬ IdempotentAt Event.ResolveSetuidUser sampleEvent { UID := 99 } sampleWorld ∧
    ¬ IdempotentAt Event.ResolveCredentialsUser sampleEvent { UID := 99 } sampleWorld ∧
    ¬ IdempotentAt Event.ResolveProcessFilesystem sampleEvent {} sampleWorld ∧
    ¬ IdempotentAt
        (fun ev (_ : Unit) w => Event.ResolveEventTimestamp (fun _ => ({} : Time)) ev w)
        sampleEvent () sampleWorld := by
  unfold IdempotentAt
  refine ⟨by decide, by decide, by decide, by decide, by decide, by decide, by decide,
    by decide, by decide, by decide, by decide⟩

/-! ### Path resolution errors -/

/-- C4, amended: on an unmemoized path, `ResolveFileInode` stores the resolver's error as
the event's path resolution error when it is a truncation error (whatever was stored
before) and leaves the stored error alone otherwise; `ResolveMountPoint` and
`ResolveMountRoot` store the resolver's error in the mount event's own
`MountPointPathResolutionError` / `RootPathResolutionError` and leave the event's path
resolution error alone. -/
theorem path_resolution_error_storage (ev : Event σ) (w : World σ) :
    (∀ f : FileEvent, f.PathnameStr = "" →
      ((ev.resolvers.resolveInode f.FileFields w.state).1.2 = some .ErrTruncatedSegment ∨
        (ev.resolvers.resolveInode f.FileFields w.state).1.2 = some .ErrTruncatedParents →
        (ev.ResolveFileInode f w).ev.GetPathResolutionError
          = (ev.resolvers.resolveInode f.FileFields w.state).1.2) ∧
      (¬ ((ev.resolvers.resolveInode f.FileFields w.state).1.2 = some .ErrTruncatedSegment ∨
        (ev.resolvers.resolveInode f.FileFields w.state).1.2 = some .ErrTruncatedParents) →
        (ev.ResolveFileInode f w).ev.GetPathResolutionError = ev.GetPathResolutionError)) ∧
    (∀ e : MountEvent, e.MountPointStr = "" →
      (ev.ResolveMountPoint e w).arg.MountPointPathResolutionError
        = (ev.resolvers.DentryResolver.Resolve e.ParentMountID e.ParentInode 0 w.state).1.2 ∧
      (ev.ResolveMountPoint e w).ev.GetPathResolutionError = ev.GetPathResolutionError) ∧
    (∀ e : MountEvent, e.RootStr = "" →
      (ev.ResolveMountRoot e w).arg.RootPathResolutionError
        = (ev.resolvers.DentryResolver.Resolve e.RootMountID e.RootInode 0 w.state).1.2 ∧
      (ev.ResolveMountRoot e w).ev.GetPathResolutionError = ev.GetPathResolutionError) := by
  refine ⟨?_, ?_, ?_⟩
  · intro f hf
    constructor
    · intro h
      rcases h with h | h <;>
        simp [Event.ResolveFileInode, hf, World.invoke, h, Event.SetPathResolutionError,
          Event.GetPathResolutionError]
    · intro h
      simp only [Event.ResolveFileInode, hf, if_true, World.invoke]
      split
      · rename_i h1; exact absurd (Or.inl h1) h
      · rename_i h1; exact absurd (Or.inr h1) h
      · rfl
  · intro e he
    simp [Event.ResolveMountPoint, he, World.invoke]
  · intro e he
    simp [Event.ResolveMountRoot, he, World.invoke]

/-- Witness for C4: on the sample host the path of inode 1 is truncated, and the truncation
error becomes the event's path resolution error. -/
theorem path_resolution_error_storage_witness :
    (sampleEvent.ResolveFileInode { FileFields := { Inode := 1 } } sampleWorld).ev.GetPathResolutionError
      = some .ErrTruncatedParents :=
  ((path_resolution_error_storage sampleEvent sampleWorld).1
    { FileFields := { Inode := 1 } } rfl).1 (Or.inr rfl)

/-- C4, as stated, fails: the resolver's error for inode 2 is not a truncation error and is
not stored by `ResolveFileInode`, and the truncation error met by `ResolveMountPoint` for
parent inode 1 is not stored in the event either. -/
theorem path_resolution_error_not_always_stored :
    ((sampleEvent.resolvers.resolveInode { Inode := 2 } sampleWorld.state).1.2
        = some (.other "dentry not found") ∧
      (sampleEvent.ResolveFileInode { FileFields := { Inode := 2 } } sampleWorld).ev.GetPathResolutionError
        = none) ∧
    ((sampleEvent.resolvers.DentryResolver.Resolve 0 1 0 sampleWorld.state).1.2
        = some .ErrTruncatedParents ∧
      (sampleEvent.ResolveMountPoint { ParentInode := 1 } sampleWorld).ev.GetPathResolutionError
        = none) := by
  decide

/-- C5: truncation is non-fatal and the partial path survives: when the path is not yet
resolved and the resolver returns `(p, err)` with `err` a truncation error,
`ResolveFileInode` returns `p`, stores `p` in `f.PathnameStr`, and
`GetPathResolutionError` returns `err` afterwards. -/
theorem ResolveFileInode_truncation_nonfatal (ev : Event σ) (f : FileEvent) (w : World σ)
    (p : String) (err : Error) (hf : f.PathnameStr = "")
    (hr : (ev.resolvers.resolveInode f.FileFields w.state).1 = (p, some err))
    (ht : err = .ErrTruncatedSegment ∨ err = .ErrTruncatedParents) :
    (ev.ResolveFileInode f w).val = p ∧
    (ev.ResolveFileInode f w).arg.PathnameStr = p ∧
    (ev.ResolveFileInode f w).ev.GetPathResolutionError = some err := by
  rcases ht with ht | ht <;> subst ht <;>
    simp [Event.ResolveFileInode, hf, World.invoke, hr, Event.SetPathResolutionError,
      Event.GetPathResolutionError]

/-- Witness for C5: the truncated path of inode 1 on the sample host. -/
theorem ResolveFileInode_truncation_nonfatal_witness :
    (sampleEvent.ResolveFileInode { FileFields := { Inode := 1 } } sampleWorld).val
        = "/usr/bin/ls" ∧
    (sampleEvent.ResolveFileInode { FileFields := { Inode := 1 } } sampleWorld).arg.PathnameStr
        = "/usr/bin/ls" ∧
    (sampleEvent.ResolveFileInode { FileFields := { Inode := 1 } } sampleWorld).ev.GetPathResolutionError
        = some .ErrTruncatedParents :=
  ResolveFileInode_truncation_nonfatal sampleEvent { FileFields := { Inode := 1 } } sampleWorld
    "/usr/bin/ls" .ErrTruncatedParents rfl rfl (Or.inr rfl)

/-! ### Event timestamp -/

/-- C6, amended: when the event has no timestamp and the time resolver yields a zero time,
`ResolveEventTimestamp` returns the wall-clock time and stores it in `ev.Timestamp`; if
that time is not zero, the next call returns the stored value and does not consult the
time resolver. -/
theorem ResolveEventTimestamp_fallback_stored (timeNow : σ → Time) (ev : Event σ)
    (w : World σ) (h0 : ev.Timestamp.IsZero = true)
    (hz : (ev.resolvers.TimeResolver.ResolveMonotonicTimestamp ev.TimestampRaw
            w.state).1.IsZero = true) :
    (Event.ResolveEventTimestamp timeNow ev w).val
      = timeNow (ev.resolvers.TimeResolver.ResolveMonotonicTimestamp ev.TimestampRaw
          w.state).2 ∧
    (Event.ResolveEventTimestamp timeNow ev w).ev.Timestamp
      = timeNow (ev.resolvers.TimeResolver.ResolveMonotonicTimestamp ev.TimestampRaw
          w.state).2 ∧
    ((timeNow (ev.resolvers.TimeResolver.ResolveMonotonicTimestamp ev.TimestampRaw
          w.state).2).IsZero = false →
      (Event.ResolveEventTimestamp timeNow (Event.ResolveEventTimestamp timeNow ev w).ev
          (Event.ResolveEventTimestamp timeNow ev w).world).val
        = timeNow (ev.resolvers.TimeResolver.ResolveMonotonicTimestamp ev.TimestampRaw
            w.state).2 ∧
      (Event.ResolveEventTimestamp timeNow (Event.ResolveEventTimestamp timeNow ev w).ev
          (Event.ResolveEventTimestamp timeNow ev w).world).world.calls
        = (Event.ResolveEventTimestamp timeNow ev w).world.calls) := by
  have h1 : Event.ResolveEventTimestamp timeNow ev w
      = ⟨timeNow (ev.resolvers.TimeResolver.ResolveMonotonicTimestamp ev.TimestampRaw
            w.state).2,
         { ev with Timestamp := timeNow (ev.resolvers.TimeResolver.ResolveMonotonicTimestamp
            ev.TimestampRaw w.state).2 }, (),
         (w.invoke (.ResolveMonotonicTimestamp ev.TimestampRaw)
            (ev.resolvers.TimeResolver.ResolveMonotonicTimestamp ev.TimestampRaw)).2⟩ := by
    simp [Event.ResolveEventTimestamp, h0, World.invoke, hz]
  rw [h1]
  refine ⟨rfl, rfl, ?_⟩
  intro hn
  simp [Event.ResolveEventTimestamp, hn]

/-- Witness for C6: the sample event carries the raw timestamp 0, which the sample time
resolver cannot resolve. -/
theorem ResolveEventTimestamp_fallback_stored_witness :
    (Event.ResolveEventTimestamp sampleNow sampleEvent sampleWorld).val
        = { sec := 1700000001 } ∧
    (Event.ResolveEventTimestamp sampleNow sampleEvent sampleWorld).ev.Timestamp
        = { sec := 1700000001 } :=
  ⟨(ResolveEventTimestamp_fallback_stored sampleNow sampleEvent sampleWorld rfl rfl).1,
   (ResolveEventTimestamp_fallback_stored sampleNow sampleEvent sampleWorld rfl rfl).2.1⟩

/-- C6, as stated, fails: after the wall-clock fallback the timestamp of the sample event
is no longer zero, and a second call does not reach the time resolver. -/
theorem ResolveEventTimestamp_fallback_not_left_zero :
    sampleEvent.Timestamp.IsZero = true ∧
    (sampleEvent.resolvers.TimeResolver.ResolveMonotonicTimestamp sampleEvent.TimestampRaw
      sampleWorld.state).1.IsZero = true ∧
    (Event.ResolveEventTimestamp sampleNow sampleEvent sampleWorld).ev.Timestamp.IsZero
      = false ∧
    (Event.ResolveEventTimestamp sampleNow
        (Event.ResolveEventTimestamp sampleNow sampleEvent sampleWorld).ev
        (Event.ResolveEventTimestamp sampleNow sampleEvent sampleWorld).world).world.calls
      = [.ResolveMonotonicTimestamp 0] := by
  decide

/-! ### Exec events -/

/-- C7: `UnmarshalProcess` hands the unmarshaller a fresh entry whose only non-zero fields
are the container context of the event and the pid and tid of its process context,
whatever entry the event held before, and the event then refers to that entry as the
unmarshaller left it. -/
theorem UnmarshalProcess_replaces_entry (ev : Event σ) (data : List Nat) (w : World σ) :
    (ev.UnmarshalProcess data w).world.calls
      = w.calls ++ [.unmarshalProcessCacheEntry
          { ContainerContext := ev.ContainerContext
            ProcessContext := { Pid := ev.ProcessContext.Pid, Tid := ev.ProcessContext.Tid } }
          data false] ∧
    (ev.UnmarshalProcess data w).ev.processCacheEntry
      = some (ev.resolvers.ProcessResolver.unmarshalProcessCacheEntry
          { ContainerContext := ev.ContainerContext
            ProcessContext := { Pid := ev.ProcessContext.Pid, Tid := ev.ProcessContext.Tid } }
          data false w.state).1.2 := by
  unfold Event.UnmarshalProcess
  simp only [World.invoke, NewProcessCacheEntry]
  split <;> exact ⟨rfl, rfl⟩

/-! ### Identity resolution -/

/-- Accessor `ResolveProcessCacheEntry` changes neither the resolvers nor the path resolution error
of the event. -/
theorem ResolveProcessCacheEntry_frame (ev : Event σ) (w : World σ) :
    (ev.ResolveProcessCacheEntry w).ev.resolvers = ev.resolvers ∧
    (ev.ResolveProcessCacheEntry w).ev.pathResolutionError = ev.pathResolutionError := by
  unfold Event.ResolveProcessCacheEntry
  dsimp only
  split <;> split <;> (try split) <;> exact ⟨rfl, rfl⟩

/-- Accessor `ResolveCredentialsUID` changes neither the resolvers nor the path resolution error
of the event. -/
theorem ResolveCredentialsUID_frame (ev : Event σ) (e : Credentials) (w : World σ) :
    (ev.ResolveCredentialsUID e w).ev.resolvers = ev.resolvers ∧
    (ev.ResolveCredentialsUID e w).ev.pathResolutionError = ev.pathResolutionError := by
  unfold Event.ResolveCredentialsUID
  split
  · dsimp only
    split <;> exact ResolveProcessCacheEntry_frame ev w
  · exact ⟨rfl, rfl⟩

/-- Accessor `ResolveCredentialsGID` changes neither the resolvers nor the path resolution error
of the event. -/
theorem ResolveCredentialsGID_frame (ev : Event σ) (e : Credentials) (w : World σ) :
    (ev.ResolveCredentialsGID e w).ev.resolvers = ev.resolvers ∧
    (ev.ResolveCredentialsGID e w).ev.pathResolutionError = ev.pathResolutionError := by
  unfold Event.ResolveCredentialsGID
  split
  · dsimp only
    split <;> exact ResolveProcessCacheEntry_frame ev w
  · exact ⟨rfl, rfl⟩

/-- Accessor `ResolveCredentialsEUID` changes neither the resolvers nor the path resolution error
of the event. -/
theorem ResolveCredentialsEUID_frame (ev : Event σ) (e : Credentials) (w : World σ) :
    (ev.ResolveCredentialsEUID e w).ev.resolvers = ev.resolvers ∧
    (ev.ResolveCredentialsEUID e w).ev.pathResolutionError = ev.pathResolutionError := by
  unfold Event.ResolveCredentialsEUID
  split
  · dsimp only
    split <;> exact ResolveProcessCacheEntry_frame ev w
  · exact ⟨rfl, rfl⟩

/-- Accessor `ResolveCredentialsEGID` changes neither the resolvers nor the path resolution error
of the event. -/
theorem ResolveCredentialsEGID_frame (ev : Event σ) (e : Credentials) (w : World σ) :
    (ev.ResolveCredentialsEGID e w).ev.resolvers = ev.resolvers ∧
    (ev.ResolveCredentialsEGID e w).ev.pathResolutionError = ev.pathResolutionError := by
  unfold Event.ResolveCredentialsEGID
  split
  · dsimp only
    split <;> exact ResolveProcessCacheEntry_frame ev w
  · exact ⟨rfl, rfl⟩

/-- Accessor `ResolveCredentialsFSUID` changes neither the resolvers nor the path resolution error
of the event. -/
theorem ResolveCredentialsFSUID_frame (ev : Event σ) (e : Credentials) (w : World σ) :
    (ev.ResolveCredentialsFSUID e w).ev.resolvers = ev.resolvers ∧
    (ev.ResolveCredentialsFSUID e w).ev.pathResolutionError = ev.pathResolutionError := by
  unfold Event.ResolveCredentialsFSUID
  split
  · dsimp only
    split <;> exact ResolveProcessCacheEntry_frame ev w
  · exact ⟨rfl, rfl⟩

/-- Accessor `ResolveCredentialsFSGID` changes neither the resolvers nor the path resolution error
of the event. -/
theorem ResolveCredentialsFSGID_frame (ev : Event σ) (e : Credentials) (w : World σ) :
    (ev.ResolveCredentialsFSGID e w).ev.resolvers = ev.resolvers ∧
    (ev.ResolveCredentialsFSGID e w).ev.pathResolutionError = ev.pathResolutionError := by
  unfold Event.ResolveCredentialsFSGID
  split
  · dsimp only
    split <;> exact ResolveProcessCacheEntry_frame ev w
  · exact ⟨rfl, rfl⟩

/-- C8, evaluated on the sample host, where uid 5 is `alice` and gid 5 is `staff`: the
three setgid accessors ask the user lookup for the group id and answer `alice`, while the
group lookup, which `ResolveChownGID` uses for the same id, answers `staff`. -/
theorem ResolveSetgid_group_looked_up_as_user :
    (sampleEvent.resolvers.UserGroupResolver.ResolveGroup 5 sampleWorld.state).1.1 = "staff" ∧
    (sampleEvent.ResolveChownGID { GID := 5 } sampleWorld).val = "staff" ∧
    (sampleEvent.ResolveSetgidGroup { GID := 5 } sampleWorld).val = "alice" ∧
    (sampleEvent.ResolveSetgidGroup { GID := 5 } sampleWorld).world.calls = [.ResolveUser 5] ∧
    (sampleEvent.ResolveSetgidEGroup { EGID := 5 } sampleWorld).val = "alice" ∧
    (sampleEvent.ResolveSetgidEGroup { EGID := 5 } sampleWorld).world.calls
      = [.ResolveUser 5] ∧
    (sampleEvent.ResolveSetgidFSGroup { FSGID := 5 } sampleWorld).val = "alice" ∧
    (sampleEvent.ResolveSetgidFSGroup { FSGID := 5 } sampleWorld).world.calls
      = [.ResolveUser 5] := by
  decide

/-- C9, amended: identity resolution soft-fails and leaves the error slot alone. For each
of `ResolveUser`, `ResolveGroup`, `ResolveChownUID`, `ResolveChownGID`, the `ResolveSetuid`
accessors and the `ResolveCredentials` name accessors: when the name slot is empty and the
lookup for the id returns an empty name together with an error, the accessor returns the
empty string. For each of these and for the `ResolveSetgid` accessors, the path resolution
error of the event after the call is the one before the call. -/
theorem identity_resolution_soft_fails :
    (∀ (ev : Event σ) (e : FileFields) (w : World σ), e.User = "" →
      SoftFail (ev.resolvers.UserGroupResolver.ResolveUser e.UID w.state) →
      (ev.ResolveUser e w).val = "") ∧
    (∀ (ev : Event σ) (e : FileFields) (w : World σ), e.Group = "" →
      SoftFail (ev.resolvers.UserGroupResolver.ResolveGroup e.GID w.state) →
      (ev.ResolveGroup e w).val = "") ∧
    (∀ (ev : Event σ) (e : ChownEvent) (w : World σ), e.User = "" →
      SoftFail (ev.resolvers.UserGroupResolver.ResolveUser e.UID w.state) →
      (ev.ResolveChownUID e w).val = "") ∧
    (∀ (ev : Event σ) (e : ChownEvent) (w : World σ), e.Group = "" →
      SoftFail (ev.resolvers.UserGroupResolver.ResolveGroup e.GID w.state) →
      (ev.ResolveChownGID e w).val = "") ∧
    (∀ (ev : Event σ) (e : SetuidEvent) (w : World σ), e.User = "" →
      SoftFail (ev.resolvers.UserGroupResolver.ResolveUser e.UID w.state) →
      (ev.ResolveSetuidUser e w).val = "") ∧
    (∀ (ev : Event σ) (e : SetuidEvent) (w : World σ), e.EUser = "" →
      SoftFail (ev.resolvers.UserGroupResolver.ResolveUser e.EUID w.state) →
      (ev.ResolveSetuidEUser e w).val = "") ∧
    (∀ (ev : Event σ) (e : SetuidEvent) (w : World σ), e.FSUser = "" →
      SoftFail (ev.resolvers.UserGroupResolver.ResolveUser e.FSUID w.state) →
      (ev.ResolveSetuidFSUser e w).val = "") ∧
    (∀ (ev : Event σ) (e : Credentials) (w : World σ), e.User = "" →
      SoftFail (ev.resolvers.UserGroupResolver.ResolveUser (ev.ResolveCredentialsUID e w).val
        (ev.ResolveCredentialsUID e w).world.state) →
      (ev.ResolveCredentialsUser e w).val = "") ∧
    (∀ (ev : Event σ) (e : Credentials) (w : World σ), e.Group = "" →
      SoftFail (ev.resolvers.UserGroupResolver.ResolveGroup (ev.ResolveCredentialsGID e w).val
        (ev.ResolveCredentialsGID e w).world.state) →
      (ev.ResolveCredentialsGroup e w).val = "") ∧
    (∀ (ev : Event σ) (e : Credentials) (w : World σ), e.EUser = "" →
      SoftFail (ev.resolvers.UserGroupResolver.ResolveUser (ev.ResolveCredentialsEUID e w).val
        (ev.ResolveCredentialsEUID e w).world.state) →
      (ev.ResolveCredentialsEUser e w).val = "") ∧
    (∀ (ev : Event σ) (e : Credentials) (w : World σ), e.EGroup = "" →
      SoftFail (ev.resolvers.UserGroupResolver.ResolveGroup (ev.ResolveCredentialsEGID e w).val
        (ev.ResolveCredentialsEGID e w).world.state) →
      (ev.ResolveCredentialsEGroup e w).val = "") ∧
    (∀ (ev : Event σ) (e : Credentials) (w : World σ), e.FSUser = "" →
      SoftFail (ev.resolvers.UserGroupResolver.ResolveUser (ev.ResolveCredentialsFSUID e w).val
        (ev.ResolveCredentialsFSUID e w).world.state) →
      (ev.ResolveCredentialsFSUser e w).val = "") ∧
    (∀ (ev : Event σ) (e : Credentials) (w : World σ), e.FSGroup = "" →
      SoftFail (ev.resolvers.UserGroupResolver.ResolveGroup (ev.ResolveCredentialsFSGID e w).val
        (ev.ResolveCredentialsFSGID e w).world.state) →
      (ev.ResolveCredentialsFSGroup e w).val = "") ∧
    KeepsPathResolutionError (Event.ResolveUser (σ := σ)) ∧
    KeepsPathResolutionError (Event.ResolveGroup (σ := σ)) ∧
    KeepsPathResolutionError (Event.ResolveChownUID (σ := σ)) ∧
    KeepsPathResolutionError (Event.ResolveChownGID (σ := σ)) ∧
    KeepsPathResolutionError (Event.ResolveSetuidUser (σ := σ)) ∧
    KeepsPathResolutionError (Event.ResolveSetuidEUser (σ := σ)) ∧
    KeepsPathResolutionError (Event.ResolveSetuidFSUser (σ := σ)) ∧
    KeepsPathResolutionError (Event.ResolveSetgidGroup (σ := σ)) ∧
    KeepsPathResolutionError (Event.ResolveSetgidEGroup (σ := σ)) ∧
    KeepsPathResolutionError (Event.ResolveSetgidFSGroup (σ := σ)) ∧
    KeepsPathResolutionError (Event.ResolveCredentialsUser (σ := σ)) ∧
    KeepsPathResolutionError (Event.ResolveCredentialsGroup (σ := σ)) ∧
    KeepsPathResolutionError (Event.ResolveCredentialsEUser (σ := σ)) ∧
    KeepsPathResolutionError (Event.ResolveCredentialsEGroup (σ := σ)) ∧
    KeepsPathResolutionError (Event.ResolveCredentialsFSUser (σ := σ)) ∧
    KeepsPathResolutionError (Event.ResolveCredentialsFSGroup (σ := σ)) := by
  refine ⟨?_, ?_, ?_, ?_, ?_, ?_, ?_, ?_, ?_, ?_, ?_, ?_, ?_, ?_, ?_, ?_, ?_, ?_, ?_, ?_, ?_, ?_, ?_, ?_, ?_, ?_, ?_, ?_, ?_⟩
  · intro ev e w he hs
    simp [Event.ResolveUser, he, World.invoke, hs.1]
  · intro ev e w he hs
    simp [Event.ResolveGroup, he, World.invoke, hs.1]
  · intro ev e w he hs
    simp [Event.ResolveChownUID, he, World.invoke, hs.1]
  · intro ev e w he hs
    simp [Event.ResolveChownGID, he, World.invoke, hs.1]
  · intro ev e w he hs
    simp [Event.ResolveSetuidUser, he, World.invoke, hs.1]
  · intro ev e w he hs
    simp [Event.ResolveSetuidEUser, he, World.invoke, hs.1]
  · intro ev e w he hs
    simp [Event.ResolveSetuidFSUser, he, World.invoke, hs.1]
  · intro ev e w he hs
    simp [Event.ResolveCredentialsUser, he, World.invoke, (ResolveCredentialsUID_frame ev e w).1, hs.1]
  · intro ev e w he hs
    simp [Event.ResolveCredentialsGroup, he, World.invoke, (ResolveCredentialsGID_frame ev e w).1, hs.1]
  · intro ev e w he hs
    simp [Event.ResolveCredentialsEUser, he, World.invoke, (ResolveCredentialsEUID_frame ev e w).1, hs.1]
  · intro ev e w he hs
    simp [Event.ResolveCredentialsEGroup, he, World.invoke, (ResolveCredentialsEGID_frame ev e w).1, hs.1]
  · intro ev e w he hs
    simp [Event.ResolveCredentialsFSUser, he, World.invoke, (ResolveCredentialsFSUID_frame ev e w).1, hs.1]
  · intro ev e w he hs
    simp [Event.ResolveCredentialsFSGroup, he, World.invoke, (ResolveCredentialsFSGID_frame ev e w).1, hs.1]
  · intro ev e w
    unfold Event.ResolveUser
    split <;> rfl
  · intro ev e w
    unfold Event.ResolveGroup
    split <;> rfl
  · intro ev e w
    unfold Event.ResolveChownUID
    split <;> rfl
  · intro ev e w
    unfold Event.ResolveChownGID
    split <;> rfl
  · intro ev e w
    unfold Event.ResolveSetuidUser
    split <;> rfl
  · intro ev e w
    unfold Event.ResolveSetuidEUser
    split <;> rfl
  · intro ev e w
    unfold Event.ResolveSetuidFSUser
    split <;> rfl
  · intro ev e w
    unfold Event.ResolveSetgidGroup
    split <;> rfl
  · intro ev e w
    unfold Event.ResolveSetgidEGroup
    split <;> rfl
  · intro ev e w
    unfold Event.ResolveSetgidFSGroup
    split <;> rfl
  · intro ev e w
    unfold Event.ResolveCredentialsUser
    split
    · exact (ResolveCredentialsUID_frame ev e w).2
    · rfl
  · intro ev e w
    unfold Event.ResolveCredentialsGroup
    split
    · exact (ResolveCredentialsGID_frame ev e w).2
    · rfl
  · intro ev e w
    unfold Event.ResolveCredentialsEUser
    split
    · exact (ResolveCredentialsEUID_frame ev e w).2
    · rfl
  · intro ev e w
    unfold Event.ResolveCredentialsEGroup
    split
    · exact (ResolveCredentialsEGID_frame ev e w).2
    · rfl
  · intro ev e w
    unfold Event.ResolveCredentialsFSUser
    split
    · exact (ResolveCredentialsFSUID_frame ev e w).2
    · rfl
  · intro ev e w
    unfold Event.ResolveCredentialsFSGroup
    split
    · exact (ResolveCredentialsFSGID_frame ev e w).2
    · rfl

/-- Witness for C9: uid 99 is unknown on the sample host, and `ResolveUser` answers with the
empty string. -/
theorem identity_resolution_soft_fails_witness :
    SoftFail (sampleEvent.resolvers.UserGroupResolver.ResolveUser 99 sampleWorld.state) ∧
    (sampleEvent.ResolveUser { UID := 99 } sampleWorld).val = "" :=
  ⟨⟨rfl, by decide⟩,
   identity_resolution_soft_fails.1 sampleEvent { UID := 99 } sampleWorld rfl
     ⟨rfl, by decide⟩⟩

/-- C9, as stated, fails: with a name already in the slot the accessor returns that name,
although the lookup for the uid returns an empty name together with an error; and
`ResolveSetgidGroup` returns the user name of id 7 although the group lookup for gid 7
returns an empty name together with an error. -/
theorem identity_resolution_not_always_empty :
    (SoftFail (sampleEvent.resolvers.UserGroupResolver.ResolveUser 99 sampleWorld.state) ∧
      (sampleEvent.ResolveUser { UID := 99, User := "bob" } sampleWorld).val = "bob") ∧
    (SoftFail (sampleEvent.resolvers.UserGroupResolver.ResolveGroup 7 sampleWorld.state) ∧
      (sampleEvent.ResolveSetgidGroup { GID := 7 } sampleWorld).val = "carol") := by
  refine ⟨⟨⟨rfl, by decide⟩, by decide⟩, ⟨⟨rfl, by decide⟩, by decide⟩⟩

/-! ### Extended attributes -/

/-- The first fragment produced by the scan of `strings.Split` is what was read so far
followed by the bytes up to the first separator. -/
theorem splitAux_head (sep : Nat) (s cur : List Nat) :
    ∃ tl, splitAux sep s cur = (cur.reverse ++ s.takeWhile (fun b => b ≠ sep)) :: tl := by
  induction s generalizing cur with
  | nil => exact ⟨[], by simp [splitAux]⟩
  | cons c cs ih =>
    by_cases hc : c = sep
    · exact ⟨splitAux sep cs [], by simp [splitAux, hc]⟩
    · obtain ⟨tl, htl⟩ := ih (c :: cur)
      exact ⟨tl, by simp [splitAux, hc, htl]⟩

/-- The bytes of `l` before its first `sep` form the longest initial segment of `l` that is
free of `sep`. -/
theorem takeWhile_ne_longest (sep : Nat) (l : List Nat) :
    l.takeWhile (fun b => b ≠ sep) <+: l ∧
    sep ∉ l.takeWhile (fun b => b ≠ sep) ∧
    (∀ p : List Nat, p <+: l → sep ∉ p → p <+: l.takeWhile (fun b => b ≠ sep)) ∧
    (sep ∉ l → l.takeWhile (fun b => b ≠ sep) = l) ∧
    (sep ∈ l → ∃ rest, l = l.takeWhile (fun b => b ≠ sep) ++ sep :: rest) := by
  induction l with
  | nil =>
    refine ⟨by simp, by simp, ?_, by simp, by simp⟩
    intro p hp _
    simpa using hp
  | cons c cs ih =>
    obtain ⟨ih1, ih2, ih3, ih4, ih5⟩ := ih
    by_cases hc : c = sep
    · subst hc
      refine ⟨by simp, by simp, ?_, by simp, ?_⟩
      · intro p hp hnp
        cases p with
        | nil => simp
        | cons a as =>
          have ha : a = c := (List.cons_prefix_cons.mp hp).1
          subst ha
          exact absurd (List.mem_cons_self _ _) hnp
      · intro _
        exact ⟨cs, by simp⟩
    · have hne : (decide (c ≠ sep)) = true := by simpa using hc
      simp only [List.takeWhile_cons, hne, if_true]
      refine ⟨(List.cons_prefix_cons).mpr ⟨rfl, ih1⟩, ?_, ?_, ?_, ?_⟩
      · intro hm
        rcases List.mem_cons.mp hm with h | h
        · exact hc h.symm
        · exact ih2 h
      · intro p hp hnp
        cases p with
        | nil => exact List.nil_prefix
        | cons a as =>
          obtain ⟨ha, has⟩ := List.cons_prefix_cons.mp hp
          subst ha
          refine (List.cons_prefix_cons).mpr ⟨rfl, ih3 as has ?_⟩
          intro hm
          exact hnp (List.mem_cons_of_mem _ hm)
      · intro hn
        rw [ih4 (fun hm => hn (List.mem_cons_of_mem _ hm))]
      · intro hm
        rcases List.mem_cons.mp hm with h | h
        · exact absurd h.symm hc
        · obtain ⟨rest, hrest⟩ := ih5 h
          exact ⟨rest, by rw [List.cons_append, ← hrest]⟩

/-- C10: for a setxattr event with an empty `Namespace`, `GetXAttrNamespace` returns the
name given by `GetXAttrName` up to, and not including, its first `.` (byte 46): the
longest initial segment of the name without a `.`, which is the whole name when the name
has no `.`. -/
theorem GetXAttrNamespace_first_segment (ev : Event σ) (e : SetXAttrEvent)
    (h : e.Namespace = []) :
    (ev.GetXAttrNamespace e).1 = (ev.GetXAttrName e).1.takeWhile (fun b => b ≠ 46) ∧
    (ev.GetXAttrNamespace e).1 <+: (ev.GetXAttrName e).1 ∧
    46 ∉ (ev.GetXAttrNamespace e).1 ∧
    (∀ p : List Nat, p <+: (ev.GetXAttrName e).1 → 46 ∉ p →
      p <+: (ev.GetXAttrNamespace e).1) ∧
    (46 ∉ (ev.GetXAttrName e).1 → (ev.GetXAttrNamespace e).1 = (ev.GetXAttrName e).1) ∧
    (46 ∈ (ev.GetXAttrName e).1 →
      ∃ rest, (ev.GetXAttrName e).1 = (ev.GetXAttrNamespace e).1 ++ 46 :: rest) := by
  have key : (ev.GetXAttrNamespace e).1
      = (ev.GetXAttrName e).1.takeWhile (fun b => b ≠ 46) := by
    obtain ⟨tl, htl⟩ := splitAux_head 46 (ev.GetXAttrName e).1 []
    simp only [List.reverse_nil, List.nil_append] at htl
    simp only [Event.GetXAttrNamespace, h, List.length_nil, if_true, stringsSplit, htl]
  rw [key]
  exact ⟨rfl, takeWhile_ne_longest 46 _⟩

/-- Witness for C10: the raw name `user.mime_type` padded with NUL bytes has the namespace
`user`. -/
theorem GetXAttrNamespace_first_segment_witness :
    (sampleEvent.GetXAttrNamespace
        { NameRaw := [117, 115, 101, 114, 46, 109, 105, 109, 101, 95, 116, 121, 112, 101,
                      0, 0, 0, 0] }).1 = [117, 115, 101, 114] :=
  (GetXAttrNamespace_first_segment sampleEvent
    { NameRaw := [117, 115, 101, 114, 46, 109, 105, 109, 101, 95, 116, 121, 112, 101,
                  0, 0, 0, 0] } rfl).1.trans (by decide)

/-! ### The process cache entry of the event -/

/-- With an entry already referenced, `ResolveProcessCacheEntry` returns it without a
resolver call. -/
theorem ResolveProcessCacheEntry_of_some (ev : Event σ) (w : World σ)
    (entry : ProcessCacheEntry) (h : ev.processCacheEntry = some entry) :
    ev.ResolveProcessCacheEntry w
      = ⟨some entry, ev.setProcessContextWithProcessCacheEntry entry, (), w⟩ := by
  simp [Event.ResolveProcessCacheEntry, h]

/-- With no entry referenced, `ResolveProcessCacheEntry` asks the process resolver once
and falls back to the empty entry. -/
theorem ResolveProcessCacheEntry_of_none (ev : Event σ) (w : World σ)
    (h : ev.processCacheEntry = none) :
    ev.ResolveProcessCacheEntry w
      = ⟨some ((ev.resolvers.ProcessResolver.Resolve ev.ProcessContext.Pid
            ev.ProcessContext.Tid w.state).1.getD {}),
         Event.setProcessContextWithProcessCacheEntry
           ({ ev with
              processCacheEntry := some
                ((ev.resolvers.ProcessResolver.Resolve ev.ProcessContext.Pid
                  ev.ProcessContext.Tid w.state).1.getD {}) } : Event σ)
           ((ev.resolvers.ProcessResolver.Resolve ev.ProcessContext.Pid
              ev.ProcessContext.Tid w.state).1.getD {}),
         (),
         { state := (ev.resolvers.ProcessResolver.Resolve ev.ProcessContext.Pid
              ev.ProcessContext.Tid w.state).2,
           calls := w.calls ++
              [.ProcessResolve ev.ProcessContext.Pid ev.ProcessContext.Tid] }⟩ := by
  unfold Event.ResolveProcessCacheEntry
  simp only [h, if_true, World.invoke]
  cases hres : (ev.resolvers.ProcessResolver.Resolve ev.ProcessContext.Pid
      ev.ProcessContext.Tid w.state).1 with
  | none => simp
  | some entry => simp

/-- After `ResolveProcessCacheEntry` the event refers to the entry returned. -/
theorem ResolveProcessCacheEntry_reference (ev : Event σ) (w : World σ) :
    ∃ entry, (ev.ResolveProcessCacheEntry w).val = some entry ∧
      (ev.ResolveProcessCacheEntry w).ev.processCacheEntry = some entry := by
  cases h : ev.processCacheEntry with
  | none =>
    rw [ResolveProcessCacheEntry_of_none ev w h]
    exact ⟨_, rfl, rfl⟩
  | some entry =>
    rw [ResolveProcessCacheEntry_of_some ev w entry h]
    exact ⟨entry, rfl, h⟩

/-- C11: `ResolveProcessCacheEntry` returns an entry and copies its ancestry view onto the
event: afterwards `Ancestor`, `ArgsArray`, `ArgsTruncated`, `EnvsArray` and `EnvsTruncated`
of `ev.ProcessContext` are those of the entry, and every other field of
`ev.ProcessContext`, `Pid` and `Tid` included, is as before. -/
theorem ResolveProcessCacheEntry_copies_ancestry (ev : Event σ) (w : World σ) :
    ∃ entry, (ev.ResolveProcessCacheEntry w).val = some entry ∧
      (ev.ResolveProcessCacheEntry w).ev.ProcessContext
        = { ev.ProcessContext with
            Ancestor := entry.ProcessContext.Ancestor
            ArgsArray := entry.ProcessContext.ArgsArray
            ArgsTruncated := entry.ProcessContext.ArgsTruncated
            EnvsArray := entry.ProcessContext.EnvsArray
            EnvsTruncated := entry.ProcessContext.EnvsTruncated } := by
  cases h : ev.processCacheEntry with
  | none =>
    rw [ResolveProcessCacheEntry_of_none ev w h]
    exact ⟨_, rfl, rfl⟩
  | some entry =>
    rw [ResolveProcessCacheEntry_of_some ev w entry h]
    exact ⟨entry, rfl, rfl⟩

/-- C12: a process-cache miss soft-fails and is memoized. `ResolveProcessCacheEntry` never
returns nil; with no entry referenced and a resolver that returns nil it returns the empty
entry; a first call adds to the call log at most one invocation of
`ProcessResolver.Resolve`, with the pid and tid of the event; and the last of any number
of further calls returns the same entry with the same call log. -/
theorem ResolveProcessCacheEntry_memoized (ev : Event σ) (w : World σ) :
    (ev.ResolveProcessCacheEntry w).val ≠ none ∧
    (ev.processCacheEntry = none →
      (ev.resolvers.ProcessResolver.Resolve ev.ProcessContext.Pid ev.ProcessContext.Tid
        w.state).1 = none →
      (ev.ResolveProcessCacheEntry w).val = some {}) ∧
    ((ev.ResolveProcessCacheEntry w).world.calls = w.calls ∨
      (ev.ResolveProcessCacheEntry w).world.calls
        = w.calls ++ [.ProcessResolve ev.ProcessContext.Pid ev.ProcessContext.Tid]) ∧
    (∀ n : Nat,
      (ev.ResolveProcessCacheEntryAgain n w).val = (ev.ResolveProcessCacheEntry w).val ∧
      (ev.ResolveProcessCacheEntryAgain n w).world.calls
        = (ev.ResolveProcessCacheEntry w).world.calls) := by
  refine ⟨?_, ?_, ?_, ?_⟩
  · obtain ⟨entry, h1, _⟩ := ResolveProcessCacheEntry_reference ev w
    rw [h1]
    exact fun h => Option.noConfusion h
  · intro h hres
    rw [ResolveProcessCacheEntry_of_none ev w h, hres]
    rfl
  · cases h : ev.processCacheEntry with
    | none =>
      rw [ResolveProcessCacheEntry_of_none ev w h]
      exact Or.inr rfl
    | some entry =>
      rw [ResolveProcessCacheEntry_of_some ev w entry h]
      exact Or.inl rfl
  · intro n
    induction n generalizing ev w with
    | zero => exact ⟨rfl, rfl⟩
    | succ n ih =>
      obtain ⟨entry, h1, h2⟩ := ResolveProcessCacheEntry_reference ev w
      have hagain := ih (ev.ResolveProcessCacheEntry w).ev (ev.ResolveProcessCacheEntry w).world
      rw [ResolveProcessCacheEntry_of_some _ _ entry h2] at hagain
      show (Event.ResolveProcessCacheEntryAgain n (ev.ResolveProcessCacheEntry w).ev
          (ev.ResolveProcessCacheEntry w).world).val = _ ∧
        (Event.ResolveProcessCacheEntryAgain n (ev.ResolveProcessCacheEntry w).ev
          (ev.ResolveProcessCacheEntry w).world).world.calls = _
      rw [hagain.1, hagain.2, h1]
      exact ⟨rfl, rfl⟩

/-- Witness for C12: the sample event of the unknown process 43 gets the empty entry, after
one invocation of the process resolver. -/
theorem ResolveProcessCacheEntry_memoized_witness :
    (Event.ResolveProcessCacheEntry
      { sampleEvent with ProcessContext := { Pid := 43, Tid := 43 } } sampleWorld).val
      = some {} :=
  (ResolveProcessCacheEntry_memoized
    { sampleEvent with ProcessContext := { Pid := 43, Tid := 43 } } sampleWorld).2.1 rfl rfl

/-! ### Dentry resolver tail calls -/

/-- C13: the dentry-resolver tail-call table has one route per slot: 12 routes, of which
the 2 in `dentry_resolver_progs` have the keys `DentryResolverKernKey = 0` and
`DentryResolverERPCKey = 1`, and the 10 in `dentry_resolver_callbacks` have the keys
0 to 9 (open, setattr, mkdir, mount, rmdir, setxattr, unlink, link source, link
destination, rename); no two routes share a program array and key, and no two routes share
a section. -/
theorem getDentryResolverTailCallRoutes_one_route_per_slot :
    getDentryResolverTailCallRoutes.length = 12 ∧
    (getDentryResolverTailCallRoutes.filter
        (fun r => r.ProgArrayName = "dentry_resolver_progs")).map (fun r => r.Key)
      = [DentryResolverKernKey, DentryResolverERPCKey] ∧
    [DentryResolverKernKey, DentryResolverERPCKey] = [0, 1] ∧
    (getDentryResolverTailCallRoutes.filter
        (fun r => r.ProgArrayName = "dentry_resolver_callbacks")).map (fun r => r.Key)
      = [DentryResolverOpenCallbackKey, DentryResolverSetAttrCallbackKey,
         DentryResolverMkdirCallbackKey, DentryResolverMountCallbackKey,
         DentryResolverSecurityInodeRmdirCallbackKey, DentryResolverSetXAttrCallbackKey,
         DentryResolverUnlinkCallbackKey, DentryResolverLinkSrcCallbackKey,
         DentryResolverLinkDstCallbackKey, DentryResolverRenameCallbackKey] ∧
    [DentryResolverOpenCallbackKey, DentryResolverSetAttrCallbackKey,
      DentryResolverMkdirCallbackKey, DentryResolverMountCallbackKey,
      DentryResolverSecurityInodeRmdirCallbackKey, DentryResolverSetXAttrCallbackKey,
      DentryResolverUnlinkCallbackKey, DentryResolverLinkSrcCallbackKey,
      DentryResolverLinkDstCallbackKey, DentryResolverRenameCallbackKey]
      = [0, 1, 2, 3, 4, 5, 6, 7, 8, 9] ∧
    (getDentryResolverTailCallRoutes.filter
        (fun r => r.ProgArrayName = "dentry_resolver_callbacks")).map
        (fun r => r.ProbeIdentificationPair.Section)
      = ["kprobe/dr_open_callback", "kprobe/dr_setattr_callback", "kprobe/dr_mkdir_callback",
         "kprobe/dr_mount_callback", "kprobe/dr_security_inode_rmdir_callback",
         "kprobe/dr_setxattr_callback", "kprobe/dr_unlink_callback",
         "kprobe/dr_link_src_callback", "kprobe/dr_link_dst_callback",
         "kprobe/dr_rename_callback"] ∧
    getDentryResolverTailCallRoutes.all
        (fun r => r.ProgArrayName = "dentry_resolver_progs" ∨
          r.ProgArrayName = "dentry_resolver_callbacks") = true ∧
    (getDentryResolverTailCallRoutes.map (fun r => (r.ProgArrayName, r.Key))).Nodup ∧
    (getDentryResolverTailCallRoutes.map
      (fun r => r.ProbeIdentificationPair.Section)).Nodup := by
  refine ⟨by decide, by decide, by decide, by decide, by decide, by decide, by decide,
    by decide, by decide⟩

/-! ### Event platform forwarder -/

/-- C15: `SendEventPlatformEvent` returns an error exactly when the event type has no
pipeline or the channel of its pipeline is full; on success the message is queued at the
tail of that channel and every other pipeline is unchanged; on error the forwarder is
unchanged; and the channel made by `newHTTPPassthroughPipeline` is empty with capacity
100. The call is a total function of the forwarder: it never waits. -/
theorem SendEventPlatformEvent_error_iff {M : Type} (s : defaultEventPlatformForwarder M)
    (e : M) (eventType : String) :
    ((s.SendEventPlatformEvent e eventType).1 ≠ none ↔
      (s.pipelines eventType = none ∨
        ∃ p, s.pipelines eventType = some p ∧ p.in_.cap ≤ p.in_.buf.length)) ∧
    ((s.SendEventPlatformEvent e eventType).1 = none →
      ∃ p, s.pipelines eventType = some p ∧
        (s.SendEventPlatformEvent e eventType).2.pipelines eventType
          = some { p with in_ := { p.in_ with buf := p.in_.buf ++ [e] } } ∧
        ∀ k, k ≠ eventType →
          (s.SendEventPlatformEvent e eventType).2.pipelines k = s.pipelines k) ∧
    ((s.SendEventPlatformEvent e eventType).1 ≠ none →
      (s.SendEventPlatformEvent e eventType).2 = s) ∧
    (newHTTPPassthroughPipeline (M := M) true
      = (some { in_ := { buf := [], cap := 100 } }, none)) := by
  unfold defaultEventPlatformForwarder.SendEventPlatformEvent
  cases hp : s.pipelines eventType with
  | none =>
    refine ⟨by simp, by simp, by simp, rfl⟩
  | some p =>
    by_cases hfull : p.in_.buf.length < p.in_.cap
    · have hsend : p.in_.trySend e = some { p.in_ with buf := p.in_.buf ++ [e] } := by
        simp [Chan.trySend, hfull]
      simp only [hsend]
      refine ⟨?_, ?_, by simp, rfl⟩
      · constructor
        · intro h; exact absurd rfl h
        · rintro (h | ⟨q, hq, hle⟩)
          · exact Option.noConfusion h
          · have hq1 : p = q := Option.some.inj hq
            subst hq1
            omega
      · intro _
        refine ⟨p, rfl, by simp, ?_⟩
        intro k hk
        simp [hk, hp]
    · have hsend : p.in_.trySend e = none := by
        simp [Chan.trySend, hfull]
      simp only [hsend]
      refine ⟨?_, by simp, by simp, rfl⟩
      constructor
      · intro _
        exact Or.inr ⟨p, rfl, by omega⟩
      · intro _ h
        exact Option.noConfusion h

/-- Witness for C15: a message sent to the empty `dbm-sample` pipeline is queued. -/
theorem SendEventPlatformEvent_error_iff_witness :
    ∃ p, (sampleForwarder []).pipelines "dbm-sample" = some p ∧
      ((sampleForwarder []).SendEventPlatformEvent 7 "dbm-sample").2.pipelines "dbm-sample"
        = some { p with in_ := { p.in_ with buf := p.in_.buf ++ [7] } } ∧
      ∀ k, k ≠ "dbm-sample" →
        ((sampleForwarder []).SendEventPlatformEvent 7 "dbm-sample").2.pipelines k
          = (sampleForwarder []).pipelines k :=
  (SendEventPlatformEvent_error_iff (sampleForwarder []) 7 "dbm-sample").2.1 (by decide)

/-! ### Request logging of the process module -/

/-- The number of info lines over successful requests, counted from the run counter `k`. -/
theorem procStatsLines_info_count (reqs : List ProcStatsRequest) (k : Nat)
    (hok : ∀ r ∈ reqs, ∃ n, r.stats = .ok n) (hk : k + reqs.length < 2 ^ 64) :
    ((procStatsLines reqs k).filter (fun l => l.level = .Info)).length
        + (min k 5 + k / 20)
      = min (k + reqs.length) 5 + (k + reqs.length) / 20 := by
  induction reqs generalizing k with
  | nil => simp [procStatsLines]
  | cons req reqs ih =>
    obtain ⟨n, hn⟩ := hok req (List.mem_cons_self _ _)
    have hlen : (req :: reqs).length = reqs.length + 1 := rfl
    rw [hlen] at hk ⊢
    have hmod : (k + 1) % 2 ^ 64 = k + 1 := Nat.mod_eq_of_lt (by omega)
    have hrest := ih (k + 1) (fun r hr => hok r (List.mem_cons_of_mem _ hr)) (by omega)
    have hstep : procStatsHandler req k
        = (k + 1, logProcTracerRequests req.logged (k + 1) n req.start) := by
      unfold procStatsHandler
      rw [hn]
      simp only [hmod]
    simp only [procStatsLines, hstep, List.filter_cons]
    by_cases hinfo : k + 1 ≤ 5 ∨ (k + 1) % 20 = 0
    · have hl : (logProcTracerRequests req.logged (k + 1) n req.start).level = .Info := by
        unfold logProcTracerRequests
        simp only [if_pos hinfo]
      simp only [hl, decide_True, if_true, List.length_cons]
      omega
    · have hl : (logProcTracerRequests req.logged (k + 1) n req.start).level = .Debug := by
        unfold logProcTracerRequests
        simp only [if_neg hinfo]
      simp only [hl]
      simp only [reduceCtorEq, decide_False, Bool.false_eq_true, if_false]
      omega

/-- C20: request logging on `/proc/stats` is throttled by count: the request numbered
`c >= 1` is logged at info level exactly when `c <= 5` or `c mod 20 = 0`, and at debug
level otherwise; hence of the requests numbered 1 to `N`, exactly
`min(N, 5) + floor(N / 20)` are logged at info level, and these are the lines the handler
of `/proc/stats` writes for its first `N` requests when each retrieves its stats
(`N < 2^64`, the run counter starting at 0). -/
theorem logProcTracerRequests_throttled :
    (∀ (now start : Time) (statsCount : Int) (c : Nat), 1 ≤ c →
      ((logProcTracerRequests now c statsCount start).level = .Info ↔
        (c ≤ 5 ∨ c % 20 = 0)) ∧
      ((logProcTracerRequests now c statsCount start).level = .Debug ↔
        ¬ (c ≤ 5 ∨ c % 20 = 0))) ∧
    (∀ (now start : Nat → Time) (statsCount : Nat → Int) (N : Nat),
      ((List.range' 1 N).filter
        (fun c => (logProcTracerRequests (now c) c (statsCount c) (start c)).level
          = .Info)).length
        = min N 5 + N / 20) ∧
    (∀ reqs : List ProcStatsRequest, (∀ r ∈ reqs, ∃ n, r.stats = .ok n) →
      reqs.length < 2 ^ 64 →
      ((procStatsLines reqs 0).filter (fun l => l.level = .Info)).length
        = min reqs.length 5 + reqs.length / 20) := by
  refine ⟨?_, ?_, ?_⟩
  · intro now start statsCount c _
    unfold logProcTracerRequests
    by_cases h : c ≤ 5 ∨ c % 20 = 0
    · simp only [if_pos h]
      simp [h]
    · simp only [if_neg h]
      simp [h]
  · intro now start statsCount N
    induction N with
    | zero => simp
    | succ N ih =>
      rw [List.range'_1_concat, List.filter_append, List.length_append, ih]
      by_cases hinfo : 1 + N ≤ 5 ∨ (1 + N) % 20 = 0
      · have hl : (logProcTracerRequests (now (1 + N)) (1 + N) (statsCount (1 + N))
            (start (1 + N))).level = .Info := by
          unfold logProcTracerRequests
          simp only [if_pos hinfo]
        simp only [List.filter_cons, hl, decide_True, if_true, List.filter_nil,
          List.length_cons, List.length_nil]
        omega
      · have hl : (logProcTracerRequests (now (1 + N)) (1 + N) (statsCount (1 + N))
            (start (1 + N))).level = .Debug := by
          unfold logProcTracerRequests
          simp only [if_neg hinfo]
        simp only [List.filter_cons, hl, reduceCtorEq, decide_False, Bool.false_eq_true,
          if_false, List.filter_nil, List.length_nil]
        omega
  · intro reqs hok hlen
    have h := procStatsLines_info_count reqs 0 hok (by omega)
    simpa using h

/-- Witness for C20: the 20th request is logged at info level, and of the first 25
requests 6 are. -/
theorem logProcTracerRequests_throttled_witness :
    ((logProcTracerRequests sampleRequest.logged 20 3 sampleRequest.start).level = .Info ↔
      (20 ≤ 5 ∨ 20 % 20 = 0)) ∧
    ((procStatsLines (List.replicate 25 sampleRequest) 0).filter
        (fun l => l.level = .Info)).length
      = min (List.replicate 25 sampleRequest).length 5
        + (List.replicate 25 sampleRequest).length / 20 :=
  ⟨(logProcTracerRequests_throttled.1 sampleRequest.logged sampleRequest.start 3 20
      (by decide)).1,
   logProcTracerRequests_throttled.2.2 (List.replicate 25 sampleRequest)
     (fun r hr => ⟨3, by rw [List.eq_of_mem_replicate hr]; rfl⟩)
     (by simp)⟩

/-! ### Credentials -/

/-- C14: credential names come from the credential snapshot of the process cache entry:
for a credentials view with a zero id and an empty name, each name accessor returns the
name that the User/Group Resolver gives for the corresponding id of the event's resolved
process cache entry (user lookup for UID, EUID, FSUID; group lookup for GID, EGID, FSGID),
and stores that name in the view. -/
theorem ResolveCredentials_names_from_entry :
    (∀ (ev : Event σ) (e : Credentials) (w : World σ), e.UID = 0 → e.User = "" →
      ∃ entry, (ev.ResolveProcessCacheEntry w).val = some entry ∧
        (ev.ResolveCredentialsUser e w).val
          = (ev.resolvers.UserGroupResolver.ResolveUser entry.ProcessContext.Process.Credentials.UID
              (ev.ResolveProcessCacheEntry w).world.state).1.1 ∧
        (ev.ResolveCredentialsUser e w).arg.User = (ev.ResolveCredentialsUser e w).val ∧
        (ev.ResolveCredentialsUser e w).world.calls
          = (ev.ResolveProcessCacheEntry w).world.calls
            ++ [.ResolveUser entry.ProcessContext.Process.Credentials.UID]) ∧
    (∀ (ev : Event σ) (e : Credentials) (w : World σ), e.GID = 0 → e.Group = "" →
      ∃ entry, (ev.ResolveProcessCacheEntry w).val = some entry ∧
        (ev.ResolveCredentialsGroup e w).val
          = (ev.resolvers.UserGroupResolver.ResolveGroup entry.ProcessContext.Process.Credentials.GID
              (ev.ResolveProcessCacheEntry w).world.state).1.1 ∧
        (ev.ResolveCredentialsGroup e w).arg.Group = (ev.ResolveCredentialsGroup e w).val ∧
        (ev.ResolveCredentialsGroup e w).world.calls
          = (ev.ResolveProcessCacheEntry w).world.calls
            ++ [.ResolveGroup entry.ProcessContext.Process.Credentials.GID]) ∧
    (∀ (ev : Event σ) (e : Credentials) (w : World σ), e.EUID = 0 → e.EUser = "" →
      ∃ entry, (ev.ResolveProcessCacheEntry w).val = some entry ∧
        (ev.ResolveCredentialsEUser e w).val
          = (ev.resolvers.UserGroupResolver.ResolveUser entry.ProcessContext.Process.Credentials.EUID
              (ev.ResolveProcessCacheEntry w).world.state).1.1 ∧
        (ev.ResolveCredentialsEUser e w).arg.EUser = (ev.ResolveCredentialsEUser e w).val ∧
        (ev.ResolveCredentialsEUser e w).world.calls
          = (ev.ResolveProcessCacheEntry w).world.calls
            ++ [.ResolveUser entry.ProcessContext.Process.Credentials.EUID]) ∧
    (∀ (ev : Event σ) (e : Credentials) (w : World σ), e.EGID = 0 → e.EGroup = "" →
      ∃ entry, (ev.ResolveProcessCacheEntry w).val = some entry ∧
        (ev.ResolveCredentialsEGroup e w).val
          = (ev.resolvers.UserGroupResolver.ResolveGroup entry.ProcessContext.Process.Credentials.EGID
              (ev.ResolveProcessCacheEntry w).world.state).1.1 ∧
        (ev.ResolveCredentialsEGroup e w).arg.EGroup = (ev.ResolveCredentialsEGroup e w).val ∧
        (ev.ResolveCredentialsEGroup e w).world.calls
          = (ev.ResolveProcessCacheEntry w).world.calls
            ++ [.ResolveGroup entry.ProcessContext.Process.Credentials.EGID]) ∧
    (∀ (ev : Event σ) (e : Credentials) (w : World σ), e.FSUID = 0 → e.FSUser = "" →
      ∃ entry, (ev.ResolveProcessCacheEntry w).val = some entry ∧
        (ev.ResolveCredentialsFSUser e w).val
          = (ev.resolvers.UserGroupResolver.ResolveUser entry.ProcessContext.Process.Credentials.FSUID
              (ev.ResolveProcessCacheEntry w).world.state).1.1 ∧
        (ev.ResolveCredentialsFSUser e w).arg.FSUser = (ev.ResolveCredentialsFSUser e w).val ∧
        (ev.ResolveCredentialsFSUser e w).world.calls
          = (ev.ResolveProcessCacheEntry w).world.calls
            ++ [.ResolveUser entry.ProcessContext.Process.Credentials.FSUID]) ∧
    (∀ (ev : Event σ) (e : Credentials) (w : World σ), e.FSGID = 0 → e.FSGroup = "" →
      ∃ entry, (ev.ResolveProcessCacheEntry w).val = some entry ∧
        (ev.ResolveCredentialsFSGroup e w).val
          = (ev.resolvers.UserGroupResolver.ResolveGroup entry.ProcessContext.Process.Credentials.FSGID
              (ev.ResolveProcessCacheEntry w).world.state).1.1 ∧
        (ev.ResolveCredentialsFSGroup e w).arg.FSGroup = (ev.ResolveCredentialsFSGroup e w).val ∧
        (ev.ResolveCredentialsFSGroup e w).world.calls
          = (ev.ResolveProcessCacheEntry w).world.calls
            ++ [.ResolveGroup entry.ProcessContext.Process.Credentials.FSGID]) := by
  refine ⟨?_, ?_, ?_, ?_, ?_, ?_⟩
  · intro ev e w hid hname
    obtain ⟨entry, h1, _⟩ := ResolveProcessCacheEntry_reference ev w
    have hnum : ev.ResolveCredentialsUID e w
        = ⟨entry.ProcessContext.Process.Credentials.UID, (ev.ResolveProcessCacheEntry w).ev,
           { e with UID := entry.ProcessContext.Process.Credentials.UID },
           (ev.ResolveProcessCacheEntry w).world⟩ := by
      simp [Event.ResolveCredentialsUID, hid, h1]
    refine ⟨entry, h1, ?_, ?_, ?_⟩ <;>
      simp [Event.ResolveCredentialsUser, hname, hnum, World.invoke,
        (ResolveProcessCacheEntry_frame ev w).1]
  · intro ev e w hid hname
    obtain ⟨entry, h1, _⟩ := ResolveProcessCacheEntry_reference ev w
    have hnum : ev.ResolveCredentialsGID e w
        = ⟨entry.ProcessContext.Process.Credentials.GID, (ev.ResolveProcessCacheEntry w).ev,
           { e with GID := entry.ProcessContext.Process.Credentials.GID },
           (ev.ResolveProcessCacheEntry w).world⟩ := by
      simp [Event.ResolveCredentialsGID, hid, h1]
    refine ⟨entry, h1, ?_, ?_, ?_⟩ <;>
      simp [Event.ResolveCredentialsGroup, hname, hnum, World.invoke,
        (ResolveProcessCacheEntry_frame ev w).1]
  · intro ev e w hid hname
    obtain ⟨entry, h1, _⟩ := ResolveProcessCacheEntry_reference ev w
    have hnum : ev.ResolveCredentialsEUID e w
        = ⟨entry.ProcessContext.Process.Credentials.EUID, (ev.ResolveProcessCacheEntry w).ev,
           { e with EUID := entry.ProcessContext.Process.Credentials.EUID },
           (ev.ResolveProcessCacheEntry w).world⟩ := by
      simp [Event.ResolveCredentialsEUID, hid, h1]
    refine ⟨entry, h1, ?_, ?_, ?_⟩ <;>
      simp [Event.ResolveCredentialsEUser, hname, hnum, World.invoke,
        (ResolveProcessCacheEntry_frame ev w).1]
  · intro ev e w hid hname
    obtain ⟨entry, h1, _⟩ := ResolveProcessCacheEntry_reference ev w
    have hnum : ev.ResolveCredentialsEGID e w
        = ⟨entry.ProcessContext.Process.Credentials.EGID, (ev.ResolveProcessCacheEntry w).ev,
           { e with EGID := entry.ProcessContext.Process.Credentials.EGID },
           (ev.ResolveProcessCacheEntry w).world⟩ := by
      simp [Event.ResolveCredentialsEGID, hid, h1]
    refine ⟨entry, h1, ?_, ?_, ?_⟩ <;>
      simp [Event.ResolveCredentialsEGroup, hname, hnum, World.invoke,
        (ResolveProcessCacheEntry_frame ev w).1]
  · intro ev e w hid hname
    obtain ⟨entry, h1, _⟩ := ResolveProcessCacheEntry_reference ev w
    have hnum : ev.ResolveCredentialsFSUID e w
        = ⟨entry.ProcessContext.Process.Credentials.FSUID, (ev.ResolveProcessCacheEntry w).ev,
           { e with FSUID := entry.ProcessContext.Process.Credentials.FSUID },
           (ev.ResolveProcessCacheEntry w).world⟩ := by
      simp [Event.ResolveCredentialsFSUID, hid, h1]
    refine ⟨entry, h1, ?_, ?_, ?_⟩ <;>
      simp [Event.ResolveCredentialsFSUser, hname, hnum, World.invoke,
        (ResolveProcessCacheEntry_frame ev w).1]
  · intro ev e w hid hname
    obtain ⟨entry, h1, _⟩ := ResolveProcessCacheEntry_reference ev w
    have hnum : ev.ResolveCredentialsFSGID e w
        = ⟨entry.ProcessContext.Process.Credentials.FSGID, (ev.ResolveProcessCacheEntry w).ev,
           { e with FSGID := entry.ProcessContext.Process.Credentials.FSGID },
           (ev.ResolveProcessCacheEntry w).world⟩ := by
      simp [Event.ResolveCredentialsFSGID, hid, h1]
    refine ⟨entry, h1, ?_, ?_, ?_⟩ <;>
      simp [Event.ResolveCredentialsFSGroup, hname, hnum, World.invoke,
        (ResolveProcessCacheEntry_frame ev w).1]

/-- Witness for C14: process 42 of the sample host runs as uid 5, named `alice`. -/
theorem ResolveCredentials_names_from_entry_witness :
    ∃ entry, (sampleEvent.ResolveProcessCacheEntry sampleWorld).val = some entry ∧
      (sampleEvent.ResolveCredentialsUser {} sampleWorld).val
        = (sampleEvent.resolvers.UserGroupResolver.ResolveUser
            entry.ProcessContext.Process.Credentials.UID
            (sampleEvent.ResolveProcessCacheEntry sampleWorld).world.state).1.1 ∧
      (sampleEvent.ResolveCredentialsUser {} sampleWorld).arg.User
        = (sampleEvent.ResolveCredentialsUser {} sampleWorld).val ∧
      (sampleEvent.ResolveCredentialsUser {} sampleWorld).world.calls
        = (sampleEvent.ResolveProcessCacheEntry sampleWorld).world.calls
          ++ [.ResolveUser entry.ProcessContext.Process.Credentials.UID] :=
  ResolveCredentials_names_from_entry.1 sampleEvent {} sampleWorld rfl rfl

/-- C16: the numeric accessors use zero as the mark of an unresolved slot, which conflates
a resolved zero (root, no capability, no parent, no cookie) with an unresolved one. For
each of `ResolveCredentialsUID`, `GID`, `EUID`, `EGID`, `FSUID`, `FSGID`, `CapEffective`,
`CapPermitted`, `ResolveProcessPPID` and `ResolveProcessCookie`: a non-zero slot is
returned, converted to `int`, without consulting the process cache entry; a zero slot
makes every call go through `ResolveProcessCacheEntry`; and when the entry holds zero the
accessor returns 0 and leaves the view as it was, so the next call is made in the same
unresolved state. The conversion of the two 64-bit capability sets gives the slot itself
below `2 ^ 63` and a negative number from there on. -/
theorem numeric_accessors_zero_sentinel :
    ZeroSentinel (Event.ResolveCredentialsUID (σ := σ)) (fun e => e.UID)
      (fun entry => entry.ProcessContext.Process.Credentials.UID) (fun v => v) ∧
    ZeroSentinel (Event.ResolveCredentialsGID (σ := σ)) (fun e => e.GID)
      (fun entry => entry.ProcessContext.Process.Credentials.GID) (fun v => v) ∧
    ZeroSentinel (Event.ResolveCredentialsEUID (σ := σ)) (fun e => e.EUID)
      (fun entry => entry.ProcessContext.Process.Credentials.EUID) (fun v => v) ∧
    ZeroSentinel (Event.ResolveCredentialsEGID (σ := σ)) (fun e => e.EGID)
      (fun entry => entry.ProcessContext.Process.Credentials.EGID) (fun v => v) ∧
    ZeroSentinel (Event.ResolveCredentialsFSUID (σ := σ)) (fun e => e.FSUID)
      (fun entry => entry.ProcessContext.Process.Credentials.FSUID) (fun v => v) ∧
    ZeroSentinel (Event.ResolveCredentialsFSGID (σ := σ)) (fun e => e.FSGID)
      (fun entry => entry.ProcessContext.Process.Credentials.FSGID) (fun v => v) ∧
    ZeroSentinel (Event.ResolveCredentialsCapEffective (σ := σ)) (fun e => e.CapEffective)
      (fun entry => entry.ProcessContext.Process.Credentials.CapEffective) intOfUint64 ∧
    ZeroSentinel (Event.ResolveCredentialsCapPermitted (σ := σ)) (fun e => e.CapPermitted)
      (fun entry => entry.ProcessContext.Process.Credentials.CapPermitted) intOfUint64 ∧
    ZeroSentinel (Event.ResolveProcessPPID (σ := σ)) (fun e => e.PPid)
      (fun entry => entry.ProcessContext.Process.PPid) (fun v => v) ∧
    ZeroSentinel (Event.ResolveProcessCookie (σ := σ)) (fun e => e.Cookie)
      (fun entry => entry.ProcessContext.Process.Cookie) (fun v => v) ∧
    intOfUint64 0 = 0 ∧
    (∀ v : Nat, v < 2 ^ 63 → intOfUint64 v = v) ∧
    intOfUint64 (2 ^ 64 - 1) = -1 := by
  refine ⟨?_, ?_, ?_, ?_, ?_, ?_, ?_, ?_, ?_, ?_, ?_, ?_, ?_⟩
  · intro ev e w
    constructor
    · intro h
      simp only [ne_eq] at h
      simp [Event.ResolveCredentialsUID, h]
    · intro h
      simp only at h
      obtain ⟨entry, h1, _⟩ := ResolveProcessCacheEntry_reference ev w
      have hR : ev.ResolveCredentialsUID e w
          = ⟨entry.ProcessContext.Process.Credentials.UID, (ev.ResolveProcessCacheEntry w).ev,
             { e with UID := entry.ProcessContext.Process.Credentials.UID }, (ev.ResolveProcessCacheEntry w).world⟩ := by
        simp [Event.ResolveCredentialsUID, h, h1]
      rw [hR]
      refine ⟨entry, h1, rfl, rfl, rfl, rfl, ?_⟩
      intro h0
      simp only at h0
      refine ⟨by simp only [h0], ?_⟩
      cases e
      simp_all
  · intro ev e w
    constructor
    · intro h
      simp only [ne_eq] at h
      simp [Event.ResolveCredentialsGID, h]
    · intro h
      simp only at h
      obtain ⟨entry, h1, _⟩ := ResolveProcessCacheEntry_reference ev w
      have hR : ev.ResolveCredentialsGID e w
          = ⟨entry.ProcessContext.Process.Credentials.GID, (ev.ResolveProcessCacheEntry w).ev,
             { e with GID := entry.ProcessContext.Process.Credentials.GID }, (ev.ResolveProcessCacheEntry w).world⟩ := by
        simp [Event.ResolveCredentialsGID, h, h1]
      rw [hR]
      refine ⟨entry, h1, rfl, rfl, rfl, rfl, ?_⟩
      intro h0
      simp only at h0
      refine ⟨by simp only [h0], ?_⟩
      cases e
      simp_all
  · intro ev e w
    constructor
    · intro h
      simp only [ne_eq] at h
      simp [Event.ResolveCredentialsEUID, h]
    · intro h
      simp only at h
      obtain ⟨entry, h1, _⟩ := ResolveProcessCacheEntry_reference ev w
      have hR : ev.ResolveCredentialsEUID e w
          = ⟨entry.ProcessContext.Process.Credentials.EUID, (ev.ResolveProcessCacheEntry w).ev,
             { e with EUID := entry.ProcessContext.Process.Credentials.EUID }, (ev.ResolveProcessCacheEntry w).world⟩ := by
        simp [Event.ResolveCredentialsEUID, h, h1]
      rw [hR]
      refine ⟨entry, h1, rfl, rfl, rfl, rfl, ?_⟩
      intro h0
      simp only at h0
      refine ⟨by simp only [h0], ?_⟩
      cases e
      simp_all
  · intro ev e w
    constructor
    · intro h
      simp only [ne_eq] at h
      simp [Event.ResolveCredentialsEGID, h]
    · intro h
      simp only at h
      obtain ⟨entry, h1, _⟩ := ResolveProcessCacheEntry_reference ev w
      have hR : ev.ResolveCredentialsEGID e w
          = ⟨entry.ProcessContext.Process.Credentials.EGID, (ev.ResolveProcessCacheEntry w).ev,
             { e with EGID := entry.ProcessContext.Process.Credentials.EGID }, (ev.ResolveProcessCacheEntry w).world⟩ := by
        simp [Event.ResolveCredentialsEGID, h, h1]
      rw [hR]
      refine ⟨entry, h1, rfl, rfl, rfl, rfl, ?_⟩
      intro h0
      simp only at h0
      refine ⟨by simp only [h0], ?_⟩
      cases e
      simp_all
  · intro ev e w
    constructor
    · intro h
      simp only [ne_eq] at h
      simp [Event.ResolveCredentialsFSUID, h]
    · intro h
      simp only at h
      obtain ⟨entry, h1, _⟩ := ResolveProcessCacheEntry_reference ev w
      have hR : ev.ResolveCredentialsFSUID e w
          = ⟨entry.ProcessContext.Process.Credentials.FSUID, (ev.ResolveProcessCacheEntry w).ev,
             { e with FSUID := entry.ProcessContext.Process.Credentials.FSUID }, (ev.ResolveProcessCacheEntry w).world⟩ := by
        simp [Event.ResolveCredentialsFSUID, h, h1]
      rw [hR]
      refine ⟨entry, h1, rfl, rfl, rfl, rfl, ?_⟩
      intro h0
      simp only at h0
      refine ⟨by simp only [h0], ?_⟩
      cases e
      simp_all
  · intro ev e w
    constructor
    · intro h
      simp only [ne_eq] at h
      simp [Event.ResolveCredentialsFSGID, h]
    · intro h
      simp only at h
      obtain ⟨entry, h1, _⟩ := ResolveProcessCacheEntry_reference ev w
      have hR : ev.ResolveCredentialsFSGID e w
          = ⟨entry.ProcessContext.Process.Credentials.FSGID, (ev.ResolveProcessCacheEntry w).ev,
             { e with FSGID := entry.ProcessContext.Process.Credentials.FSGID }, (ev.ResolveProcessCacheEntry w).world⟩ := by
        simp [Event.ResolveCredentialsFSGID, h, h1]
      rw [hR]
      refine ⟨entry, h1, rfl, rfl, rfl, rfl, ?_⟩
      intro h0
      simp only at h0
      refine ⟨by simp only [h0], ?_⟩
      cases e
      simp_all
  · intro ev e w
    constructor
    · intro h
      simp only [ne_eq] at h
      simp [Event.ResolveCredentialsCapEffective, h]
    · intro h
      simp only at h
      obtain ⟨entry, h1, _⟩ := ResolveProcessCacheEntry_reference ev w
      have hR : ev.ResolveCredentialsCapEffective e w
          = ⟨intOfUint64 entry.ProcessContext.Process.Credentials.CapEffective, (ev.ResolveProcessCacheEntry w).ev,
             { e with CapEffective := entry.ProcessContext.Process.Credentials.CapEffective }, (ev.ResolveProcessCacheEntry w).world⟩ := by
        simp [Event.ResolveCredentialsCapEffective, h, h1]
      rw [hR]
      refine ⟨entry, h1, rfl, rfl, rfl, rfl, ?_⟩
      intro h0
      simp only at h0
      refine ⟨by simp only [h0], ?_⟩
      cases e
      simp_all
  · intro ev e w
    constructor
    · intro h
      simp only [ne_eq] at h
      simp [Event.ResolveCredentialsCapPermitted, h]
    · intro h
      simp only at h
      obtain ⟨entry, h1, _⟩ := ResolveProcessCacheEntry_reference ev w
      have hR : ev.ResolveCredentialsCapPermitted e w
          = ⟨intOfUint64 entry.ProcessContext.Process.Credentials.CapPermitted, (ev.ResolveProcessCacheEntry w).ev,
             { e with CapPermitted := entry.ProcessContext.Process.Credentials.CapPermitted }, (ev.ResolveProcessCacheEntry w).world⟩ := by
        simp [Event.ResolveCredentialsCapPermitted, h, h1]
      rw [hR]
      refine ⟨entry, h1, rfl, rfl, rfl, rfl, ?_⟩
      intro h0
      simp only at h0
      refine ⟨by simp only [h0], ?_⟩
      cases e
      simp_all
  · intro ev e w
    constructor
    · intro h
      simp only [ne_eq] at h
      simp [Event.ResolveProcessPPID, h]
    · intro h
      simp only at h
      obtain ⟨entry, h1, _⟩ := ResolveProcessCacheEntry_reference ev w
      have hR : ev.ResolveProcessPPID e w
          = ⟨entry.ProcessContext.Process.PPid, (ev.ResolveProcessCacheEntry w).ev,
             { e with PPid := entry.ProcessContext.Process.PPid }, (ev.ResolveProcessCacheEntry w).world⟩ := by
        simp [Event.ResolveProcessPPID, h, h1]
      rw [hR]
      refine ⟨entry, h1, rfl, rfl, rfl, rfl, ?_⟩
      intro h0
      simp only at h0
      refine ⟨by simp only [h0], ?_⟩
      cases e
      simp_all
  · intro ev e w
    constructor
    · intro h
      simp only [ne_eq] at h
      simp [Event.ResolveProcessCookie, h]
    · intro h
      simp only at h
      obtain ⟨entry, h1, _⟩ := ResolveProcessCacheEntry_reference ev w
      have hR : ev.ResolveProcessCookie e w
          = ⟨entry.ProcessContext.Process.Cookie, (ev.ResolveProcessCacheEntry w).ev,
             { e with Cookie := entry.ProcessContext.Process.Cookie }, (ev.ResolveProcessCacheEntry w).world⟩ := by
        simp [Event.ResolveProcessCookie, h, h1]
      rw [hR]
      refine ⟨entry, h1, rfl, rfl, rfl, rfl, ?_⟩
      intro h0
      simp only at h0
      refine ⟨by simp only [h0], ?_⟩
      cases e
      simp_all
  · decide
  · intro v hv
    have h1 : v % 2 ^ 64 = v := Nat.mod_eq_of_lt (by omega)
    simp only [intOfUint64, h1, hv, if_true]
  · decide

/-- Witness for C16: on the sample host a view with uid 7 is answered from the slot with
no resolver call; a view with a zero effective uid goes through the process cache entry,
which holds 0, and is left as it was; and a full capability set is returned as -1. -/
theorem numeric_accessors_zero_sentinel_witness :
    sampleEvent.ResolveCredentialsUID { UID := 7 } sampleWorld
      = ⟨7, sampleEvent, { UID := 7 }, sampleWorld⟩ ∧
    (∃ entry, (sampleEvent.ResolveProcessCacheEntry sampleWorld).val = some entry ∧
      (sampleEvent.ResolveCredentialsEUID {} sampleWorld).val
        = entry.ProcessContext.Process.Credentials.EUID ∧
      (sampleEvent.ResolveCredentialsEUID {} sampleWorld).arg.EUID
        = entry.ProcessContext.Process.Credentials.EUID ∧
      (sampleEvent.ResolveCredentialsEUID {} sampleWorld).ev
        = (sampleEvent.ResolveProcessCacheEntry sampleWorld).ev ∧
      (sampleEvent.ResolveCredentialsEUID {} sampleWorld).world
        = (sampleEvent.ResolveProcessCacheEntry sampleWorld).world ∧
      (entry.ProcessContext.Process.Credentials.EUID = 0 →
        (sampleEvent.ResolveCredentialsEUID {} sampleWorld).val = 0 ∧
        (sampleEvent.ResolveCredentialsEUID {} sampleWorld).arg = {})) ∧
    (sampleEvent.ResolveCredentialsCapEffective { CapEffective := 2 ^ 64 - 1 } sampleWorld
        = ⟨intOfUint64 (2 ^ 64 - 1), sampleEvent, { CapEffective := 2 ^ 64 - 1 },
           sampleWorld⟩ ∧
      intOfUint64 (2 ^ 64 - 1) = -1) :=
  ⟨(numeric_accessors_zero_sentinel.1 sampleEvent { UID := 7 } sampleWorld).1 (by decide),
   (numeric_accessors_zero_sentinel.2.2.1 sampleEvent {} sampleWorld).2 rfl,
   (numeric_accessors_zero_sentinel.2.2.2.2.2.2.1 sampleEvent
      { CapEffective := 2 ^ 64 - 1 } sampleWorld).1 (by decide),
   (numeric_accessors_zero_sentinel (σ := Nat)).2.2.2.2.2.2.2.2.2.2.2.2⟩

/-! ### The name of an extended attribute -/

/-- Dropping the leading bytes equal to `c` cuts off a run of `c` and leaves a list that
does not start with `c`. -/
theorem dropWhile_eq_run (c : Nat) (l : List Nat) :
    ∃ run, l = run ++ l.dropWhile (fun b => b = c) ∧ (∀ b ∈ run, b = c) ∧
      (l.dropWhile (fun b => b = c)).head? ≠ some c := by
  induction l with
  | nil => exact ⟨[], by simp, by simp, by simp⟩
  | cons a l ih =>
    by_cases ha : a = c
    · subst ha
      obtain ⟨run, h1, h2, h3⟩ := ih
      refine ⟨a :: run, ?_, ?_, ?_⟩
      · simp only [List.dropWhile_cons, decide_True, if_true, List.cons_append]
        rw [← h1]
      · intro b hb
        rcases List.mem_cons.mp hb with h | h
        · exact h
        · exact h2 b h
      · simpa [List.dropWhile_cons] using h3
    · refine ⟨[], ?_, by simp, ?_⟩
      · simp [List.dropWhile_cons, ha]
      · simp [List.dropWhile_cons, ha]

/-- The model of `bytes.Trim` cuts a run of `c` off each end and leaves a list that neither
starts nor ends with `c`. -/
theorem bytesTrim_spec (c : Nat) (s : List Nat) :
    ∃ front back, s = front ++ bytesTrim s c ++ back ∧
      (∀ b ∈ front, b = c) ∧ (∀ b ∈ back, b = c) ∧
      (bytesTrim s c).head? ≠ some c ∧ (bytesTrim s c).getLast? ≠ some c := by
  obtain ⟨front, hf1, hf2, hf3⟩ := dropWhile_eq_run c s
  obtain ⟨run, hr1, hr2, hr3⟩ := dropWhile_eq_run c (s.dropWhile (fun b => b = c)).reverse
  have hmid : s.dropWhile (fun b => b = c) = bytesTrim s c ++ run.reverse := by
    have := congrArg List.reverse hr1
    simpa [bytesTrim] using this
  refine ⟨front, run.reverse, ?_, hf2, ?_, ?_, ?_⟩
  · rw [List.append_assoc, ← hmid]
    exact hf1
  · intro b hb
    exact hr2 b (List.mem_reverse.mp hb)
  · intro hhead
    apply hf3
    rw [hmid]
    cases htrim : bytesTrim s c with
    | nil => rw [htrim] at hhead; simp at hhead
    | cons a as =>
      rw [htrim] at hhead
      simpa using hhead
  · intro hlast
    apply hr3
    have : (bytesTrim s c).getLast?
        = ((s.dropWhile (fun b => b = c)).reverse.dropWhile (fun b => b = c)).head? := by
      simp [bytesTrim]
    rw [← this]
    exact hlast

/-- C17: `GetXAttrName` returns the raw name buffer with its NUL padding removed at both
ends only. With an empty `Name`, the raw buffer is a run of 0x00, then the result, then a
run of 0x00, the result neither starts nor ends with 0x00 (so every byte between its
first and last non-zero byte is kept), and the result is stored in `Name`; with a
non-empty `Name`, that name is returned and nothing is stored, whatever the raw buffer
holds. -/
theorem GetXAttrName_trims_both_ends (ev : Event σ) (e : SetXAttrEvent) :
    (e.Name = [] →
      (∃ front back, e.NameRaw = front ++ (ev.GetXAttrName e).1 ++ back ∧
        (∀ b ∈ front, b = 0) ∧ (∀ b ∈ back, b = 0)) ∧
      (ev.GetXAttrName e).1.head? ≠ some 0 ∧
      (ev.GetXAttrName e).1.getLast? ≠ some 0 ∧
      (ev.GetXAttrName e).2 = { e with Name := (ev.GetXAttrName e).1 }) ∧
    (e.Name ≠ [] → ∀ raw : List Nat,
      ev.GetXAttrName { e with NameRaw := raw } = (e.Name, { e with NameRaw := raw })) := by
  constructor
  · intro h
    have hval : ev.GetXAttrName e
        = (bytesTrim e.NameRaw 0, { e with Name := bytesTrim e.NameRaw 0 }) := by
      simp [Event.GetXAttrName, h]
    rw [hval]
    obtain ⟨front, back, h1, h2, h3, h4, h5⟩ := bytesTrim_spec 0 e.NameRaw
    exact ⟨⟨front, back, h1, h2, h3⟩, h4, h5, rfl⟩
  · intro h raw
    have hlen : ¬ e.Name.length = 0 := by
      intro h0
      exact h (List.length_eq_zero.mp h0)
    simp [Event.GetXAttrName, hlen]

/-- Witness for C17: the raw buffer `00 61 00 62 00 00` gives the name `61 00 62`. -/
theorem GetXAttrName_trims_both_ends_witness :
    (sampleEvent.GetXAttrName { NameRaw := [0, 97, 0, 98, 0, 0] }).2
      = { NameRaw := [0, 97, 0, 98, 0, 0], Name := [97, 0, 98] } :=
  ((GetXAttrName_trims_both_ends sampleEvent { NameRaw := [0, 97, 0, 98, 0, 0] }).1
    rfl).2.2.2.trans (by decide)

/-! ### The basename of the process -/

/-- C18: with an empty `BasenameStr` and an empty `PathnameStr`, `ResolveProcessBasename`
returns `path.Base` of the path of the resolved process cache entry and stores it in
`BasenameStr`; for an entry with an empty path this is `"."`. -/
theorem ResolveProcessBasename_of_entry (ev : Event σ) (e : Process) (w : World σ)
    (hb : e.BasenameStr = "") (hp : e.PathnameStr = "") :
    ∃ entry, (ev.ResolveProcessCacheEntry w).val = some entry ∧
      (ev.ResolveProcessBasename e w).val = pathBase entry.ProcessContext.Process.PathnameStr ∧
      (ev.ResolveProcessBasename e w).arg.BasenameStr
        = pathBase entry.ProcessContext.Process.PathnameStr ∧
      (entry.ProcessContext.Process.PathnameStr = "" →
        (ev.ResolveProcessBasename e w).val = "." ∧
        (ev.ResolveProcessBasename e w).arg.BasenameStr = ".") := by
  obtain ⟨entry, h1, _⟩ := ResolveProcessCacheEntry_reference ev w
  have hinode : ev.ResolveProcessInode e w
      = ⟨entry.ProcessContext.Process.PathnameStr, (ev.ResolveProcessCacheEntry w).ev,
         { e with PathnameStr := entry.ProcessContext.Process.PathnameStr },
         (ev.ResolveProcessCacheEntry w).world⟩ := by
    simp [Event.ResolveProcessInode, hp, h1]
  have hval : (ev.ResolveProcessBasename e w).val
        = pathBase entry.ProcessContext.Process.PathnameStr ∧
      (ev.ResolveProcessBasename e w).arg.BasenameStr
        = pathBase entry.ProcessContext.Process.PathnameStr := by
    simp [Event.ResolveProcessBasename, hb, hp, hinode]
  refine ⟨entry, h1, hval.1, hval.2, ?_⟩
  intro hempty
  rw [hval.1, hval.2, hempty]
  exact ⟨rfl, rfl⟩

/-- Witness for C18: the unknown process 43 of the sample host, whose entry is the empty
one. -/
theorem ResolveProcessBasename_of_entry_witness :
    ∃ entry,
      (Event.ResolveProcessCacheEntry
        { sampleEvent with ProcessContext := { Pid := 43, Tid := 43 } } sampleWorld).val
        = some entry ∧
      (Event.ResolveProcessBasename
        { sampleEvent with ProcessContext := { Pid := 43, Tid := 43 } } {} sampleWorld).val
        = pathBase entry.ProcessContext.Process.PathnameStr ∧
      (Event.ResolveProcessBasename
        { sampleEvent with ProcessContext := { Pid := 43, Tid := 43 } } {}
          sampleWorld).arg.BasenameStr
        = pathBase entry.ProcessContext.Process.PathnameStr ∧
      (entry.ProcessContext.Process.PathnameStr = "" →
        (Event.ResolveProcessBasename
          { sampleEvent with ProcessContext := { Pid := 43, Tid := 43 } } {}
            sampleWorld).val = "." ∧
        (Event.ResolveProcessBasename
          { sampleEvent with ProcessContext := { Pid := 43, Tid := 43 } } {}
            sampleWorld).arg.BasenameStr = ".") :=
  ResolveProcessBasename_of_entry
    { sampleEvent with ProcessContext := { Pid := 43, Tid := 43 } } {} sampleWorld rfl rfl

/-! ### Failure of the unmarshaller -/

/-- C19: `UnmarshalProcess` is not atomic on failure: when the unmarshaller returns
`(n, err)` with `err` non-nil for the fresh entry, `UnmarshalProcess` returns `(n, err)`
and leaves the exec event as it was, but the event already refers to the new entry, as
the unmarshaller left it, whatever entry it referred to before. -/
theorem UnmarshalProcess_failure_keeps_new_entry (ev : Event σ) (data : List Nat)
    (w : World σ) (n : Int) (err : Error)
    (hr : (ev.resolvers.ProcessResolver.unmarshalProcessCacheEntry
            { ContainerContext := ev.ContainerContext
              ProcessContext := { Pid := ev.ProcessContext.Pid, Tid := ev.ProcessContext.Tid } }
            data false w.state).1.1 = (n, some err)) :
    (ev.UnmarshalProcess data w).val = (n, some err) ∧
    (ev.UnmarshalProcess data w).ev.Exec = ev.Exec ∧
    (ev.UnmarshalProcess data w).ev.processCacheEntry
      = some (ev.resolvers.ProcessResolver.unmarshalProcessCacheEntry
          { ContainerContext := ev.ContainerContext
            ProcessContext := { Pid := ev.ProcessContext.Pid, Tid := ev.ProcessContext.Tid } }
          data false w.state).1.2 := by
  unfold Event.UnmarshalProcess
  simp only [World.invoke, NewProcessCacheEntry, hr]
  simp

/-- Witness for C19: the sample unmarshaller rejects a 3-byte body; the event that referred
to the entry of process 42 refers to the fresh entry afterwards. -/
theorem UnmarshalProcess_failure_keeps_new_entry_witness :
    (Event.UnmarshalProcess { sampleEvent with processCacheEntry := some sampleEntry }
        [1, 2, 3] sampleWorld).val = (0, some .ErrNotEnoughData) ∧
    (Event.UnmarshalProcess { sampleEvent with processCacheEntry := some sampleEntry }
        [1, 2, 3] sampleWorld).ev.Exec = sampleEvent.Exec ∧
    (Event.UnmarshalProcess { sampleEvent with processCacheEntry := some sampleEntry }
        [1, 2, 3] sampleWorld).ev.processCacheEntry
      = some { ProcessContext := { Pid := 42, Tid := 42 } } :=
  UnmarshalProcess_failure_keeps_new_entry
    { sampleEvent with processCacheEntry := some sampleEntry } [1, 2, 3] sampleWorld 0
    .ErrNotEnoughData rfl

/-! ### Idempotence of the accessors, accessor by accessor -/

/-- The call log only grows through `ResolveProcessCacheEntry`. -/
theorem ResolveProcessCacheEntry_calls_le (ev : Event σ) (w : World σ) :
    w.calls.length ≤ (ev.ResolveProcessCacheEntry w).world.calls.length := by
  cases h : ev.processCacheEntry with
  | none =>
    rw [ResolveProcessCacheEntry_of_none ev w h]
    simp
  | some entry =>
    rw [ResolveProcessCacheEntry_of_some ev w entry h]

/-- The call log only grows through `ResolveCredentialsUID`. -/
theorem ResolveCredentialsUID_calls_le (ev : Event σ) (e : Credentials) (w : World σ) :
    w.calls.length ≤ (ev.ResolveCredentialsUID e w).world.calls.length := by
  unfold Event.ResolveCredentialsUID
  split
  · dsimp only
    split <;> exact ResolveProcessCacheEntry_calls_le ev w
  · exact Nat.le_refl _

/-- The call log only grows through `ResolveCredentialsGID`. -/
theorem ResolveCredentialsGID_calls_le (ev : Event σ) (e : Credentials) (w : World σ) :
    w.calls.length ≤ (ev.ResolveCredentialsGID e w).world.calls.length := by
  unfold Event.ResolveCredentialsGID
  split
  · dsimp only
    split <;> exact ResolveProcessCacheEntry_calls_le ev w
  · exact Nat.le_refl _

/-- The call log only grows through `ResolveCredentialsEUID`. -/
theorem ResolveCredentialsEUID_calls_le (ev : Event σ) (e : Credentials) (w : World σ) :
    w.calls.length ≤ (ev.ResolveCredentialsEUID e w).world.calls.length := by
  unfold Event.ResolveCredentialsEUID
  split
  · dsimp only
    split <;> exact ResolveProcessCacheEntry_calls_le ev w
  · exact Nat.le_refl _

/-- The call log only grows through `ResolveCredentialsEGID`. -/
theorem ResolveCredentialsEGID_calls_le (ev : Event σ) (e : Credentials) (w : World σ) :
    w.calls.length ≤ (ev.ResolveCredentialsEGID e w).world.calls.length := by
  unfold Event.ResolveCredentialsEGID
  split
  · dsimp only
    split <;> exact ResolveProcessCacheEntry_calls_le ev w
  · exact Nat.le_refl _

/-- The call log only grows through `ResolveCredentialsFSUID`. -/
theorem ResolveCredentialsFSUID_calls_le (ev : Event σ) (e : Credentials) (w : World σ) :
    w.calls.length ≤ (ev.ResolveCredentialsFSUID e w).world.calls.length := by
  unfold Event.ResolveCredentialsFSUID
  split
  · dsimp only
    split <;> exact ResolveProcessCacheEntry_calls_le ev w
  · exact Nat.le_refl _

/-- The call log only grows through `ResolveCredentialsFSGID`. -/
theorem ResolveCredentialsFSGID_calls_le (ev : Event σ) (e : Credentials) (w : World σ) :
    w.calls.length ≤ (ev.ResolveCredentialsFSGID e w).world.calls.length := by
  unfold Event.ResolveCredentialsFSGID
  split
  · dsimp only
    split <;> exact ResolveProcessCacheEntry_calls_le ev w
  · exact Nat.le_refl _

/-- An accessor that is idempotent on populated results, and that never returns an
unpopulated result without invoking a resolver, is idempotent exactly on populated
results. -/
theorem idempotentExactlyWhen_of {V O : Type} (populated : O → Prop)
    (R : Event σ → V → World σ → Ret σ V O) (hidem : IdempotentWhen populated R)
    (hgrow : ∀ ev e w, ¬ populated (R ev e w).val → (R ev e w).world.calls ≠ w.calls) :
    IdempotentExactlyWhen populated R := by
  intro ev e w
  constructor
  · intro h
    by_contra hn
    have h2 : ¬ populated (R (R ev e w).ev (R ev e w).arg (R ev e w).world).val := by
      rw [h.1]
      exact hn
    exact hgrow _ _ _ h2 h.2
  · exact hidem ev e w

/-- An accessor that returns its memo slot when set, and otherwise fills it from the
process cache entry of the event, is idempotent: the second call finds either the slot or
the entry memoized. -/
theorem idempotent_of_entry_backed {V S O : Type} (R : Event σ → V → World σ → Ret σ V O)
    (unset : S → Prop) (slot : V → S) (src : ProcessCacheEntry → S) (set : V → S → V)
    (out : S → O) (hslot : ∀ e v, slot (set e v) = v)
    (hmemo : ∀ ev e w, ¬ unset (slot e) → R ev e w = ⟨out (slot e), ev, e, w⟩)
    (hfill : ∀ ev e w entry, unset (slot e) →
      (ev.ResolveProcessCacheEntry w).val = some entry →
      R ev e w = ⟨out (src entry), (ev.ResolveProcessCacheEntry w).ev, set e (src entry),
        (ev.ResolveProcessCacheEntry w).world⟩) :
    Idempotent R := by
  intro ev e w
  unfold IdempotentAt
  by_cases hu : unset (slot e)
  · obtain ⟨entry, h1, h2⟩ := ResolveProcessCacheEntry_reference ev w
    rw [hfill ev e w entry hu h1]
    simp only
    by_cases hu2 : unset (src entry)
    · have hsome := ResolveProcessCacheEntry_of_some (ev.ResolveProcessCacheEntry w).ev
        (ev.ResolveProcessCacheEntry w).world entry h2
      have hv : (Event.ResolveProcessCacheEntry (ev.ResolveProcessCacheEntry w).ev
          (ev.ResolveProcessCacheEntry w).world).val = some entry := by
        rw [hsome]
      rw [hfill _ _ _ entry (by rw [hslot]; exact hu2) hv, hsome]
      exact ⟨rfl, rfl⟩
    · rw [hmemo _ _ _ (by rw [hslot]; exact hu2), hslot]
      exact ⟨rfl, rfl⟩
  · rw [hmemo ev e w hu]
    simp only
    rw [hmemo ev e w hu]
    exact ⟨rfl, rfl⟩

/-- C3, amended: the accessors of `Event` are idempotent as far as their memo reaches.
First, the accessors that read only the process cache entry of the event are idempotent
on every event: the second call returns the same value and invokes no resolver method.
Second, each accessor that memoizes the answer of a resolver is idempotent exactly when
its first call returns a populated value (a non-empty string, a non-zero time); after an
empty answer the second call invokes the resolver again. Third, `ResolveFileFilesystem`
keeps no memo: every call invokes `MountResolver.GetFilesystem`, so it is never
idempotent. -/
theorem accessors_idempotence :
    (
      Idempotent (Event.ResolveContainerID (σ := σ)) ∧
      Idempotent (Event.ResolveProcessPPID (σ := σ)) ∧
      Idempotent (Event.ResolveProcessInode (σ := σ)) ∧
      Idempotent (Event.ResolveProcessContainerPath (σ := σ)) ∧
      Idempotent (Event.ResolveProcessBasename (σ := σ)) ∧
      Idempotent (Event.ResolveProcessCookie (σ := σ)) ∧
      Idempotent (Event.ResolveProcessComm (σ := σ)) ∧
      Idempotent (Event.ResolveCredentialsUID (σ := σ)) ∧
      Idempotent (Event.ResolveCredentialsGID (σ := σ)) ∧
      Idempotent (Event.ResolveCredentialsEUID (σ := σ)) ∧
      Idempotent (Event.ResolveCredentialsEGID (σ := σ)) ∧
      Idempotent (Event.ResolveCredentialsFSUID (σ := σ)) ∧
      Idempotent (Event.ResolveCredentialsFSGID (σ := σ)) ∧
      Idempotent (Event.ResolveCredentialsCapEffective (σ := σ)) ∧
      Idempotent (Event.ResolveCredentialsCapPermitted (σ := σ))) ∧
    (
      IdempotentExactlyWhen (fun v => v ≠ "") (Event.ResolveFileInode (σ := σ)) ∧
      IdempotentExactlyWhen (fun v => v ≠ "") (Event.ResolveFileBasename (σ := σ)) ∧
      IdempotentExactlyWhen (fun v => v ≠ "") (Event.ResolveFileContainerPath (σ := σ)) ∧
      IdempotentExactlyWhen (fun v => v ≠ "") (Event.ResolveMountPoint (σ := σ)) ∧
      IdempotentExactlyWhen (fun v => v ≠ "") (Event.ResolveMountRoot (σ := σ)) ∧
      IdempotentExactlyWhen (fun v => v ≠ "") (Event.ResolveUser (σ := σ)) ∧
      IdempotentExactlyWhen (fun v => v ≠ "") (Event.ResolveGroup (σ := σ)) ∧
      IdempotentExactlyWhen (fun v => v ≠ "") (Event.ResolveChownUID (σ := σ)) ∧
      IdempotentExactlyWhen (fun v => v ≠ "") (Event.ResolveChownGID (σ := σ)) ∧
      IdempotentExactlyWhen (fun v => v ≠ "") (Event.ResolveProcessTTY (σ := σ)) ∧
      IdempotentExactlyWhen (fun v => v ≠ "") (Event.ResolveProcessFilesystem (σ := σ)) ∧
      IdempotentExactlyWhen (fun v => v ≠ "") (Event.ResolveCredentialsUser (σ := σ)) ∧
      IdempotentExactlyWhen (fun v => v ≠ "") (Event.ResolveCredentialsGroup (σ := σ)) ∧
      IdempotentExactlyWhen (fun v => v ≠ "") (Event.ResolveCredentialsEUser (σ := σ)) ∧
      IdempotentExactlyWhen (fun v => v ≠ "") (Event.ResolveCredentialsEGroup (σ := σ)) ∧
      IdempotentExactlyWhen (fun v => v ≠ "") (Event.ResolveCredentialsFSUser (σ := σ)) ∧
      IdempotentExactlyWhen (fun v => v ≠ "") (Event.ResolveCredentialsFSGroup (σ := σ)) ∧
      IdempotentExactlyWhen (fun v => v ≠ "") (Event.ResolveSetuidUser (σ := σ)) ∧
      IdempotentExactlyWhen (fun v => v ≠ "") (Event.ResolveSetuidEUser (σ := σ)) ∧
      IdempotentExactlyWhen (fun v => v ≠ "") (Event.ResolveSetuidFSUser (σ := σ)) ∧
      IdempotentExactlyWhen (fun v => v ≠ "") (Event.ResolveSetgidGroup (σ := σ)) ∧
      IdempotentExactlyWhen (fun v => v ≠ "") (Event.ResolveSetgidEGroup (σ := σ)) ∧
      IdempotentExactlyWhen (fun v => v ≠ "") (Event.ResolveSetgidFSGroup (σ := σ)) ∧
      (∀ timeNow : σ → Time, IdempotentExactlyWhen (fun t => t.IsZero = false)
        (fun ev (_ : Unit) w => Event.ResolveEventTimestamp timeNow ev w))) ∧
    ((∀ (ev : Event σ) (f : FileEvent) (w : World σ),
        (ev.ResolveFileFilesystem f w).world.calls
          = w.calls ++ [.GetFilesystem f.FileFields.MountID]) ∧
      (∀ (ev : Event σ) (f : FileEvent) (w : World σ),
        ¬ IdempotentAt Event.ResolveFileFilesystem ev f w)) := by
  refine ⟨⟨?_, ?_, ?_, ?_, ?_, ?_, ?_, ?_, ?_, ?_, ?_, ?_, ?_, ?_, ?_⟩,
    ⟨?_, ?_, ?_, ?_, ?_, ?_, ?_, ?_, ?_, ?_, ?_, ?_, ?_, ?_, ?_, ?_, ?_, ?_, ?_, ?_, ?_, ?_,
      ?_, ?_⟩, ⟨?_, ?_⟩⟩
  · refine idempotent_of_entry_backed _ (fun v => v = "") (fun e => e.ID)
      (fun entry => entry.ContainerContext.ID) (fun e v => { e with ID := v }) (fun v => v) ?_ ?_ ?_
    · intro e v
      rfl
    · intro ev e w h
      simp only at h
      simp [Event.ResolveContainerID, h]
    · intro ev e w entry hu h1
      simp only at hu
      simp [Event.ResolveContainerID, hu, h1]
  · refine idempotent_of_entry_backed _ (fun v => v = 0) (fun e => e.PPid)
      (fun entry => entry.ProcessContext.Process.PPid) (fun e v => { e with PPid := v }) (fun v => v) ?_ ?_ ?_
    · intro e v
      rfl
    · intro ev e w h
      simp only at h
      simp [Event.ResolveProcessPPID, h]
    · intro ev e w entry hu h1
      simp only at hu
      simp [Event.ResolveProcessPPID, hu, h1]
  · refine idempotent_of_entry_backed _ (fun v => v = "") (fun e => e.PathnameStr)
      (fun entry => entry.ProcessContext.Process.PathnameStr) (fun e v => { e with PathnameStr := v }) (fun v => v) ?_ ?_ ?_
    · intro e v
      rfl
    · intro ev e w h
      simp only at h
      simp [Event.ResolveProcessInode, h]
    · intro ev e w entry hu h1
      simp only at hu
      simp [Event.ResolveProcessInode, hu, h1]
  · refine idempotent_of_entry_backed _ (fun v => v = "") (fun e => e.ContainerPath)
      (fun entry => entry.ProcessContext.Process.ContainerPath) (fun e v => { e with ContainerPath := v }) (fun v => v) ?_ ?_ ?_
    · intro e v
      rfl
    · intro ev e w h
      simp only at h
      simp [Event.ResolveProcessContainerPath, h]
    · intro ev e w entry hu h1
      simp only at hu
      simp [Event.ResolveProcessContainerPath, hu, h1]
  · intro ev e w
    have hslot : (ev.ResolveProcessBasename e w).arg.BasenameStr ≠ "" := by
      unfold Event.ResolveProcessBasename
      split
      · exact pathBase_ne_empty _
      · assumption
    have hval : (ev.ResolveProcessBasename e w).val = (ev.ResolveProcessBasename e w).arg.BasenameStr := by
      unfold Event.ResolveProcessBasename
      split <;> rfl
    have hmemo : ∀ (ev1 : Event σ) (e1 : Process) (w1 : World σ), e1.BasenameStr ≠ "" →
        ev1.ResolveProcessBasename e1 w1 = ⟨e1.BasenameStr, ev1, e1, w1⟩ := by
      intro ev1 e1 w1 h1
      simp [Event.ResolveProcessBasename, h1]
    unfold IdempotentAt
    rw [hmemo _ _ _ hslot]
    exact ⟨hval.symm, rfl⟩
  · refine idempotent_of_entry_backed _ (fun v => v = 0) (fun e => e.Cookie)
      (fun entry => entry.ProcessContext.Process.Cookie) (fun e v => { e with Cookie := v }) (fun v => v) ?_ ?_ ?_
    · intro e v
      rfl
    · intro ev e w h
      simp only at h
      simp [Event.ResolveProcessCookie, h]
    · intro ev e w entry hu h1
      simp only at hu
      simp [Event.ResolveProcessCookie, hu, h1]
  · refine idempotent_of_entry_backed _ (fun v => v = "") (fun e => e.Comm)
      (fun entry => entry.ProcessContext.Process.Comm) (fun e v => { e with Comm := v }) (fun v => v) ?_ ?_ ?_
    · intro e v
      rfl
    · intro ev e w h
      simp only at h
      simp [Event.ResolveProcessComm, h]
    · intro ev e w entry hu h1
      simp only at hu
      simp [Event.ResolveProcessComm, hu, h1]
  · refine idempotent_of_entry_backed _ (fun v => v = 0) (fun e => e.UID)
      (fun entry => entry.ProcessContext.Process.Credentials.UID) (fun e v => { e with UID := v }) (fun v => v) ?_ ?_ ?_
    · intro e v
      rfl
    · intro ev e w h
      simp only at h
      simp [Event.ResolveCredentialsUID, h]
    · intro ev e w entry hu h1
      simp only at hu
      simp [Event.ResolveCredentialsUID, hu, h1]
  · refine idempotent_of_entry_backed _ (fun v => v = 0) (fun e => e.GID)
      (fun entry => entry.ProcessContext.Process.Credentials.GID) (fun e v => { e with GID := v }) (fun v => v) ?_ ?_ ?_
    · intro e v
      rfl
    · intro ev e w h
      simp only at h
      simp [Event.ResolveCredentialsGID, h]
    · intro ev e w entry hu h1
      simp only at hu
      simp [Event.ResolveCredentialsGID, hu, h1]
  · refine idempotent_of_entry_backed _ (fun v => v = 0) (fun e => e.EUID)
      (fun entry => entry.ProcessContext.Process.Credentials.EUID) (fun e v => { e with EUID := v }) (fun v => v) ?_ ?_ ?_
    · intro e v
      rfl
    · intro ev e w h
      simp only at h
      simp [Event.ResolveCredentialsEUID, h]
    · intro ev e w entry hu h1
      simp only at hu
      simp [Event.ResolveCredentialsEUID, hu, h1]
  · refine idempotent_of_entry_backed _ (fun v => v = 0) (fun e => e.EGID)
      (fun entry => entry.ProcessContext.Process.Credentials.EGID) (fun e v => { e with EGID := v }) (fun v => v) ?_ ?_ ?_
    · intro e v
      rfl
    · intro ev e w h
      simp only at h
      simp [Event.ResolveCredentialsEGID, h]
    · intro ev e w entry hu h1
      simp only at hu
      simp [Event.ResolveCredentialsEGID, hu, h1]
  · refine idempotent_of_entry_backed _ (fun v => v = 0) (fun e => e.FSUID)
      (fun entry => entry.ProcessContext.Process.Credentials.FSUID) (fun e v => { e with FSUID := v }) (fun v => v) ?_ ?_ ?_
    · intro e v
      rfl
    · intro ev e w h
      simp only at h
      simp [Event.ResolveCredentialsFSUID, h]
    · intro ev e w entry hu h1
      simp only at hu
      simp [Event.ResolveCredentialsFSUID, hu, h1]
  · refine idempotent_of_entry_backed _ (fun v => v = 0) (fun e => e.FSGID)
      (fun entry => entry.ProcessContext.Process.Credentials.FSGID) (fun e v => { e with FSGID := v }) (fun v => v) ?_ ?_ ?_
    · intro e v
      rfl
    · intro ev e w h
      simp only at h
      simp [Event.ResolveCredentialsFSGID, h]
    · intro ev e w entry hu h1
      simp only at hu
      simp [Event.ResolveCredentialsFSGID, hu, h1]
  · refine idempotent_of_entry_backed _ (fun v => v = 0) (fun e => e.CapEffective)
      (fun entry => entry.ProcessContext.Process.Credentials.CapEffective) (fun e v => { e with CapEffective := v }) intOfUint64 ?_ ?_ ?_
    · intro e v
      rfl
    · intro ev e w h
      simp only at h
      simp [Event.ResolveCredentialsCapEffective, h]
    · intro ev e w entry hu h1
      simp only at hu
      simp [Event.ResolveCredentialsCapEffective, hu, h1]
  · refine idempotent_of_entry_backed _ (fun v => v = 0) (fun e => e.CapPermitted)
      (fun entry => entry.ProcessContext.Process.Credentials.CapPermitted) (fun e v => { e with CapPermitted := v }) intOfUint64 ?_ ?_ ?_
    · intro e v
      rfl
    · intro ev e w h
      simp only at h
      simp [Event.ResolveCredentialsCapPermitted, h]
    · intro ev e w entry hu h1
      simp only at hu
      simp [Event.ResolveCredentialsCapPermitted, hu, h1]
  · refine idempotentExactlyWhen_of _ _
      (idempotentWhen_of_memo _ _ (fun e => e.PathnameStr) ?_ ?_) ?_
    · intro ev e w
      unfold Event.ResolveFileInode
      split <;> rfl
    · intro ev e w h
      simp only [ne_eq] at h
      simp [Event.ResolveFileInode, h]
    · intro ev e w h
      by_cases hg : e.PathnameStr = ""
      · simp [Event.ResolveFileInode, hg, World.invoke]
      · exact absurd (show (ev.ResolveFileInode e w).val ≠ "" by simp [Event.ResolveFileInode, hg]) h
  · refine idempotentExactlyWhen_of _ _
      (idempotentWhen_of_memo _ _ (fun e => e.BasenameStr) ?_ ?_) ?_
    · intro ev e w
      unfold Event.ResolveFileBasename
      split
      · split <;> rfl
      · rfl
    · intro ev e w h
      simp only [ne_eq] at h
      simp [Event.ResolveFileBasename, h]
    · intro ev e w h
      by_cases hg : e.BasenameStr = ""
      · by_cases hp : e.PathnameStr = ""
        · simp [Event.ResolveFileBasename, hg, hp, World.invoke]
        · refine absurd (show (ev.ResolveFileBasename e w).val ≠ "" from ?_) h
          simp only [Event.ResolveFileBasename, hg, if_true, ne_eq, hp, not_false_eq_true]
          exact pathBase_ne_empty _
      · exact absurd (show (ev.ResolveFileBasename e w).val ≠ "" by simp [Event.ResolveFileBasename, hg]) h
  · refine idempotentExactlyWhen_of _ _
      (idempotentWhen_of_memo _ _ (fun e => e.ContainerPath) ?_ ?_) ?_
    · intro ev e w
      unfold Event.ResolveFileContainerPath
      split <;> rfl
    · intro ev e w h
      simp only [ne_eq] at h
      simp [Event.ResolveFileContainerPath, h]
    · intro ev e w h
      by_cases hg : e.ContainerPath = ""
      · simp [Event.ResolveFileContainerPath, hg, World.invoke]
      · exact absurd (show (ev.ResolveFileContainerPath e w).val ≠ "" by simp [Event.ResolveFileContainerPath, hg]) h
  · refine idempotentExactlyWhen_of _ _
      (idempotentWhen_of_memo _ _ (fun e => e.MountPointStr) ?_ ?_) ?_
    · intro ev e w
      unfold Event.ResolveMountPoint
      split <;> rfl
    · intro ev e w h
      simp only [ne_eq] at h
      simp [Event.ResolveMountPoint, h]
    · intro ev e w h
      by_cases hg : e.MountPointStr = ""
      · simp [Event.ResolveMountPoint, hg, World.invoke]
      · exact absurd (show (ev.ResolveMountPoint e w).val ≠ "" by simp [Event.ResolveMountPoint, hg]) h
  · refine idempotentExactlyWhen_of _ _
      (idempotentWhen_of_memo _ _ (fun e => e.RootStr) ?_ ?_) ?_
    · intro ev e w
      unfold Event.ResolveMountRoot
      split <;> rfl
    · intro ev e w h
      simp only [ne_eq] at h
      simp [Event.ResolveMountRoot, h]
    · intro ev e w h
      by_cases hg : e.RootStr = ""
      · simp [Event.ResolveMountRoot, hg, World.invoke]
      · exact absurd (show (ev.ResolveMountRoot e w).val ≠ "" by simp [Event.ResolveMountRoot, hg]) h
  · refine idempotentExactlyWhen_of _ _
      (idempotentWhen_of_memo _ _ (fun e => e.User) ?_ ?_) ?_
    · intro ev e w
      unfold Event.ResolveUser
      split <;> rfl
    · intro ev e w h
      simp only [ne_eq] at h
      simp [Event.ResolveUser, h]
    · intro ev e w h
      by_cases hg : e.User = ""
      · simp [Event.ResolveUser, hg, World.invoke]
      · exact absurd (show (ev.ResolveUser e w).val ≠ "" by simp [Event.ResolveUser, hg]) h
  · refine idempotentExactlyWhen_of _ _
      (idempotentWhen_of_memo _ _ (fun e => e.Group) ?_ ?_) ?_
    · intro ev e w
      unfold Event.ResolveGroup
      split <;> rfl
    · intro ev e w h
      simp only [ne_eq] at h
      simp [Event.ResolveGroup, h]
    · intro ev e w h
      by_cases hg : e.Group = ""
      · simp [Event.ResolveGroup, hg, World.invoke]
      · exact absurd (show (ev.ResolveGroup e w).val ≠ "" by simp [Event.ResolveGroup, hg]) h
  · refine idempotentExactlyWhen_of _ _
      (idempotentWhen_of_memo _ _ (fun e => e.User) ?_ ?_) ?_
    · intro ev e w
      unfold Event.ResolveChownUID
      split <;> rfl
    · intro ev e w h
      simp only [ne_eq] at h
      simp [Event.ResolveChownUID, h]
    · intro ev e w h
      by_cases hg : e.User = ""
      · simp [Event.ResolveChownUID, hg, World.invoke]
      · exact absurd (show (ev.ResolveChownUID e w).val ≠ "" by simp [Event.ResolveChownUID, hg]) h
  · refine idempotentExactlyWhen_of _ _
      (idempotentWhen_of_memo _ _ (fun e => e.Group) ?_ ?_) ?_
    · intro ev e w
      unfold Event.ResolveChownGID
      split <;> rfl
    · intro ev e w h
      simp only [ne_eq] at h
      simp [Event.ResolveChownGID, h]
    · intro ev e w h
      by_cases hg : e.Group = ""
      · simp [Event.ResolveChownGID, hg, World.invoke]
      · exact absurd (show (ev.ResolveChownGID e w).val ≠ "" by simp [Event.ResolveChownGID, hg]) h
  · refine idempotentExactlyWhen_of _ _
      (idempotentWhen_of_memo _ _ (fun e => e.TTYName) ?_ ?_) ?_
    · intro ev e w
      unfold Event.ResolveProcessTTY
      split
      · dsimp only
        split <;> rfl
      · rfl
    · intro ev e w h
      simp only [ne_eq] at h
      simp [Event.ResolveProcessTTY, h]
    · intro ev e w h
      by_cases hg : e.TTYName = ""
      · obtain ⟨entry, h1, _⟩ := ResolveProcessCacheEntry_reference ev w
        have hle := ResolveProcessCacheEntry_calls_le ev w
        intro heq
        have hlen := congrArg List.length heq
        simp [Event.ResolveProcessTTY, hg, h1, World.invoke] at hlen
        omega
      · exact absurd (show (ev.ResolveProcessTTY e w).val ≠ "" by simp [Event.ResolveProcessTTY, hg]) h
  · refine idempotentExactlyWhen_of _ _
      (idempotentWhen_of_memo _ _ (fun e => e.Filesystem) ?_ ?_) ?_
    · intro ev e w
      unfold Event.ResolveProcessFilesystem
      split
      · dsimp only
        split <;> rfl
      · rfl
    · intro ev e w h
      simp only [ne_eq] at h
      simp [Event.ResolveProcessFilesystem, h]
    · intro ev e w h
      by_cases hg : e.Filesystem = ""
      · obtain ⟨entry, h1, _⟩ := ResolveProcessCacheEntry_reference ev w
        have hle := ResolveProcessCacheEntry_calls_le ev w
        intro heq
        have hlen := congrArg List.length heq
        simp [Event.ResolveProcessFilesystem, hg, h1, World.invoke] at hlen
        omega
      · exact absurd (show (ev.ResolveProcessFilesystem e w).val ≠ "" by simp [Event.ResolveProcessFilesystem, hg]) h
  · refine idempotentExactlyWhen_of _ _
      (idempotentWhen_of_memo _ _ (fun e => e.User) ?_ ?_) ?_
    · intro ev e w
      unfold Event.ResolveCredentialsUser
      split <;> rfl
    · intro ev e w h
      simp only [ne_eq] at h
      simp [Event.ResolveCredentialsUser, h]
    · intro ev e w h
      by_cases hg : e.User = ""
      · have hle := ResolveCredentialsUID_calls_le ev e w
        intro heq
        have hlen := congrArg List.length heq
        simp [Event.ResolveCredentialsUser, hg, World.invoke] at hlen
        omega
      · exact absurd (show (ev.ResolveCredentialsUser e w).val ≠ "" by simp [Event.ResolveCredentialsUser, hg]) h
  · refine idempotentExactlyWhen_of _ _
      (idempotentWhen_of_memo _ _ (fun e => e.Group) ?_ ?_) ?_
    · intro ev e w
      unfold Event.ResolveCredentialsGroup
      split <;> rfl
    · intro ev e w h
      simp only [ne_eq] at h
      simp [Event.ResolveCredentialsGroup, h]
    · intro ev e w h
      by_cases hg : e.Group = ""
      · have hle := ResolveCredentialsGID_calls_le ev e w
        intro heq
        have hlen := congrArg List.length heq
        simp [Event.ResolveCredentialsGroup, hg, World.invoke] at hlen
        omega
      · exact absurd (show (ev.ResolveCredentialsGroup e w).val ≠ "" by simp [Event.ResolveCredentialsGroup, hg]) h
  · refine idempotentExactlyWhen_of _ _
      (idempotentWhen_of_memo _ _ (fun e => e.EUser) ?_ ?_) ?_
    · intro ev e w
      unfold Event.ResolveCredentialsEUser
      split <;> rfl
    · intro ev e w h
      simp only [ne_eq] at h
      simp [Event.ResolveCredentialsEUser, h]
    · intro ev e w h
      by_cases hg : e.EUser = ""
      · have hle := ResolveCredentialsEUID_calls_le ev e w
        intro heq
        have hlen := congrArg List.length heq
        simp [Event.ResolveCredentialsEUser, hg, World.invoke] at hlen
        omega
      · exact absurd (show (ev.ResolveCredentialsEUser e w).val ≠ "" by simp [Event.ResolveCredentialsEUser, hg]) h
  · refine idempotentExactlyWhen_of _ _
      (idempotentWhen_of_memo _ _ (fun e => e.EGroup) ?_ ?_) ?_
    · intro ev e w
      unfold Event.ResolveCredentialsEGroup
      split <;> rfl
    · intro ev e w h
      simp only [ne_eq] at h
      simp [Event.ResolveCredentialsEGroup, h]
    · intro ev e w h
      by_cases hg : e.EGroup = ""
      · have hle := ResolveCredentialsEGID_calls_le ev e w
        intro heq
        have hlen := congrArg List.length heq
        simp [Event.ResolveCredentialsEGroup, hg, World.invoke] at hlen
        omega
      · exact absurd (show (ev.ResolveCredentialsEGroup e w).val ≠ "" by simp [Event.ResolveCredentialsEGroup, hg]) h
  · refine idempotentExactlyWhen_of _ _
      (idempotentWhen_of_memo _ _ (fun e => e.FSUser) ?_ ?_) ?_
    · intro ev e w
      unfold Event.ResolveCredentialsFSUser
      split <;> rfl
    · intro ev e w h
      simp only [ne_eq] at h
      simp [Event.ResolveCredentialsFSUser, h]
    · intro ev e w h
      by_cases hg : e.FSUser = ""
      · have hle := ResolveCredentialsFSUID_calls_le ev e w
        intro heq
        have hlen := congrArg List.length heq
        simp [Event.ResolveCredentialsFSUser, hg, World.invoke] at hlen
        omega
      · exact absurd (show (ev.ResolveCredentialsFSUser e w).val ≠ "" by simp [Event.ResolveCredentialsFSUser, hg]) h
  · refine idempotentExactlyWhen_of _ _
      (idempotentWhen_of_memo _ _ (fun e => e.FSGroup) ?_ ?_) ?_
    · intro ev e w
      unfold Event.ResolveCredentialsFSGroup
      split <;> rfl
    · intro ev e w h
      simp only [ne_eq] at h
      simp [Event.ResolveCredentialsFSGroup, h]
    · intro ev e w h
      by_cases hg : e.FSGroup = ""
      · have hle := ResolveCredentialsFSGID_calls_le ev e w
        intro heq
        have hlen := congrArg List.length heq
        simp [Event.ResolveCredentialsFSGroup, hg, World.invoke] at hlen
        omega
      · exact absurd (show (ev.ResolveCredentialsFSGroup e w).val ≠ "" by simp [Event.ResolveCredentialsFSGroup, hg]) h
  · refine idempotentExactlyWhen_of _ _
      (idempotentWhen_of_memo _ _ (fun e => e.User) ?_ ?_) ?_
    · intro ev e w
      unfold Event.ResolveSetuidUser
      split <;> rfl
    · intro ev e w h
      simp only [ne_eq] at h
      simp [Event.ResolveSetuidUser, h]
    · intro ev e w h
      by_cases hg : e.User = ""
      · simp [Event.ResolveSetuidUser, hg, World.invoke]
      · exact absurd (show (ev.ResolveSetuidUser e w).val ≠ "" by simp [Event.ResolveSetuidUser, hg]) h
  · refine idempotentExactlyWhen_of _ _
      (idempotentWhen_of_memo _ _ (fun e => e.EUser) ?_ ?_) ?_
    · intro ev e w
      unfold Event.ResolveSetuidEUser
      split <;> rfl
    · intro ev e w h
      simp only [ne_eq] at h
      simp [Event.ResolveSetuidEUser, h]
    · intro ev e w h
      by_cases hg : e.EUser = ""
      · simp [Event.ResolveSetuidEUser, hg, World.invoke]
      · exact absurd (show (ev.ResolveSetuidEUser e w).val ≠ "" by simp [Event.ResolveSetuidEUser, hg]) h
  · refine idempotentExactlyWhen_of _ _
      (idempotentWhen_of_memo _ _ (fun e => e.FSUser) ?_ ?_) ?_
    · intro ev e w
      unfold Event.ResolveSetuidFSUser
      split <;> rfl
    · intro ev e w h
      simp only [ne_eq] at h
      simp [Event.ResolveSetuidFSUser, h]
    · intro ev e w h
      by_cases hg : e.FSUser = ""
      · simp [Event.ResolveSetuidFSUser, hg, World.invoke]
      · exact absurd (show (ev.ResolveSetuidFSUser e w).val ≠ "" by simp [Event.ResolveSetuidFSUser, hg]) h
  · refine idempotentExactlyWhen_of _ _
      (idempotentWhen_of_memo _ _ (fun e => e.Group) ?_ ?_) ?_
    · intro ev e w
      unfold Event.ResolveSetgidGroup
      split <;> rfl
    · intro ev e w h
      simp only [ne_eq] at h
      simp [Event.ResolveSetgidGroup, h]
    · intro ev e w h
      by_cases hg : e.Group = ""
      · simp [Event.ResolveSetgidGroup, hg, World.invoke]
      · exact absurd (show (ev.ResolveSetgidGroup e w).val ≠ "" by simp [Event.ResolveSetgidGroup, hg]) h
  · refine idempotentExactlyWhen_of _ _
      (idempotentWhen_of_memo _ _ (fun e => e.EGroup) ?_ ?_) ?_
    · intro ev e w
      unfold Event.ResolveSetgidEGroup
      split <;> rfl
    · intro ev e w h
      simp only [ne_eq] at h
      simp [Event.ResolveSetgidEGroup, h]
    · intro ev e w h
      by_cases hg : e.EGroup = ""
      · simp [Event.ResolveSetgidEGroup, hg, World.invoke]
      · exact absurd (show (ev.ResolveSetgidEGroup e w).val ≠ "" by simp [Event.ResolveSetgidEGroup, hg]) h
  · refine idempotentExactlyWhen_of _ _
      (idempotentWhen_of_memo _ _ (fun e => e.FSGroup) ?_ ?_) ?_
    · intro ev e w
      unfold Event.ResolveSetgidFSGroup
      split <;> rfl
    · intro ev e w h
      simp only [ne_eq] at h
      simp [Event.ResolveSetgidFSGroup, h]
    · intro ev e w h
      by_cases hg : e.FSGroup = ""
      · simp [Event.ResolveSetgidFSGroup, hg, World.invoke]
      · exact absurd (show (ev.ResolveSetgidFSGroup e w).val ≠ "" by simp [Event.ResolveSetgidFSGroup, hg]) h
  · intro timeNow
    refine idempotentExactlyWhen_of _ _ ?_ ?_
    · intro ev e w h
      have hval : (Event.ResolveEventTimestamp timeNow ev w).val
          = (Event.ResolveEventTimestamp timeNow ev w).ev.Timestamp := by
        unfold Event.ResolveEventTimestamp
        split <;> rfl
      have hmemo : ∀ (ev1 : Event σ) (w1 : World σ), ev1.Timestamp.IsZero = false →
          Event.ResolveEventTimestamp timeNow ev1 w1 = ⟨ev1.Timestamp, ev1, (), w1⟩ := by
        intro ev1 w1 h1
        simp [Event.ResolveEventTimestamp, h1]
      simp only at h
      rw [hval] at h
      unfold IdempotentAt
      simp only
      rw [hmemo _ _ h]
      exact ⟨hval.symm, rfl⟩
    · intro ev e w h
      simp only at h
      by_cases hg : ev.Timestamp.IsZero = true
      · simp [Event.ResolveEventTimestamp, hg, World.invoke]
      · refine absurd (show (Event.ResolveEventTimestamp timeNow ev w).val.IsZero = false
          from ?_) h
        simp only [Bool.not_eq_true] at hg
        simp [Event.ResolveEventTimestamp, hg]
  · intro ev f w
    simp [Event.ResolveFileFilesystem, World.invoke]
  · intro ev f w h
    have hlen := congrArg List.length h.2
    simp [Event.ResolveFileFilesystem, World.invoke] at hlen

/-- Witness for C3: on the sample host the effective uid of process 42 is 0, and
`ResolveCredentialsEUID` is idempotent all the same; the path of inode 3 resolves to a
non-empty string, so `ResolveFileInode` is idempotent there; and the user lookup of uid 99
gives the empty string, so `ResolveUser` is not. -/
theorem accessors_idempotence_witness :
    IdempotentAt Event.ResolveCredentialsEUID sampleEvent {} sampleWorld ∧
    ((sampleEvent.ResolveFileInode { FileFields := { Inode := 3 } } sampleWorld).val ≠ "" ∧
      IdempotentAt Event.ResolveFileInode sampleEvent { FileFields := { Inode := 3 } }
        sampleWorld) ∧
    (¬ (sampleEvent.ResolveUser { UID := 99 } sampleWorld).val ≠ "" ∧
      ¬ IdempotentAt Event.ResolveUser sampleEvent { UID := 99 } sampleWorld) :=
  ⟨accessors_idempotence.1.2.2.2.2.2.2.2.2.2.1 sampleEvent {} sampleWorld,
   ⟨by decide,
    (accessors_idempotence.2.1.1 sampleEvent { FileFields := { Inode := 3 } }
      sampleWorld).mpr (by decide)⟩,
   ⟨by decide,
    fun h => absurd ((accessors_idempotence.2.1.2.2.2.2.2.1 sampleEvent { UID := 99 }
      sampleWorld).mp h) (by decide)⟩⟩

end Probe
